import Mathlib

/-!
Verification of the multi-agent simulation core of the game-center repository
(boids flocking, aquarium predator-prey ecosystem, ant-colony pheromone grid).

The JavaScript sources are embedded shallowly: agent records become structures,
per-frame mutation loops become folds that write list cells in place, and the
IEEE-754 doubles of the source are idealized as an arbitrary linear ordered
field K.  Math.sqrt is passed in as an explicit function parameter `sq`;
theorems that depend on its meaning assume `SqrtOK sq` (true of Real.sqrt),
while concrete evaluations instantiate `sq` with a finite table that is exact
on every argument arising in that configuration (each such argument is a
perfect square of a rational, and the table entries are verified inside the
corresponding theorem statements).  Math.sin / Math.cos / Math.atan2 and
Math.random are likewise injected as parameters, following the spec's
determinism note that randomness must be injectable.
-/

variable {K : Type} [LinearOrderedField K]

/-! ## Boids (src/public/scripts/boids-simulation.js) -/

/-- One boid: position, velocity and the per-tick acceleration accumulator,
mirroring the object literal of createBoids. -/
structure Boid (K : Type) where
  x : K
  y : K
  vx : K
  vy : K
  ax : K
  ay : K
deriving DecidableEq

/-- The tunable parameters of the boids simulation read during a tick
(this.params plus the canvas size). -/
structure BoidParams (K : Type) where
  maxSpeed : K
  maxForce : K
  separationWeight : K
  alignmentWeight : K
  cohesionWeight : K
  neighborRadius : K
  separationRadius : K
  width : K
  height : K
  trailLength : Nat
  showTrails : Bool

/-- distance(a, b) = sqrt(dx*dx + dy*dy). -/
def bdist (sq : K → K) (a b : Boid K) : K :=
  sq ((a.x - b.x) * (a.x - b.x) + (a.y - b.y) * (a.y - b.y))

/-- getNeighbors(boid, index): every other boid strictly closer than
neighborRadius. -/
def getNeighbors (sq : K → K) (p : BoidParams K) (boids : List (Boid K))
    (b : Boid K) (idx : Nat) : List (Boid K) :=
  (boids.enum.filter
    (fun q => decide (q.1 ≠ idx) && decide (bdist sq b q.2 < p.neighborRadius))).map Prod.snd

/-- separate(boid, neighbors): inverse-square repulsion from close neighbors,
averaged, then normalized to maxSpeed and turned into a steering force. -/
def separate (sq : K → K) (p : BoidParams K) (b : Boid K)
    (neighbors : List (Boid K)) : K × K :=
  let acc := neighbors.foldl
    (fun (st : (K × K) × Nat) n =>
      let d := bdist sq b n
      if d < p.separationRadius ∧ 0 < d then
        let dx := b.x - n.x
        let dy := b.y - n.y
        let mag := sq (dx * dx + dy * dy)
        let dx2 := if 0 < mag then dx / (mag * mag) else dx
        let dy2 := if 0 < mag then dy / (mag * mag) else dy
        ((st.1.1 + dx2, st.1.2 + dy2), st.2 + 1)
      else st)
    ((0, 0), 0)
  if 0 < acc.2 then
    let sx := acc.1.1 / (acc.2 : K)
    let sy := acc.1.2 / (acc.2 : K)
    let mag := sq (sx * sx + sy * sy)
    if 0 < mag then
      (sx / mag * p.maxSpeed - b.vx, sy / mag * p.maxSpeed - b.vy)
    else (sx, sy)
  else acc.1

/-- align(boid, neighbors): average neighbor velocity, normalized to maxSpeed,
minus own velocity; the zero vector when there are no neighbors. -/
def align (sq : K → K) (p : BoidParams K) (b : Boid K)
    (neighbors : List (Boid K)) : K × K :=
  if neighbors.length = 0 then (0, 0)
  else
    let s := neighbors.foldl (fun (st : K × K) n => (st.1 + n.vx, st.2 + n.vy)) (0, 0)
    let sx := s.1 / (neighbors.length : K)
    let sy := s.2 / (neighbors.length : K)
    let mag := sq (sx * sx + sy * sy)
    if 0 < mag then
      (sx / mag * p.maxSpeed - b.vx, sy / mag * p.maxSpeed - b.vy)
    else (sx, sy)

/-- seek(boid, target): desired velocity toward the target at maxSpeed
(zero-magnitude guard leaves the raw difference), minus current velocity. -/
def seek (sq : K → K) (p : BoidParams K) (b : Boid K) (target : K × K) : K × K :=
  let dx := target.1 - b.x
  let dy := target.2 - b.y
  let mag := sq (dx * dx + dy * dy)
  let dx2 := if 0 < mag then dx / mag * p.maxSpeed else dx
  let dy2 := if 0 < mag then dy / mag * p.maxSpeed else dy
  (dx2 - b.vx, dy2 - b.vy)

/-- getCenterOfMass(neighbors): the average neighbor position, and the
sentinel (0,0) when the neighbor list is empty. -/
def getCenterOfMass (neighbors : List (Boid K)) : K × K :=
  if neighbors.length = 0 then (0, 0)
  else
    let s := neighbors.foldl (fun (st : K × K) n => (st.1 + n.x, st.2 + n.y)) (0, 0)
    (s.1 / (neighbors.length : K), s.2 / (neighbors.length : K))

/-- boundaryForce(boid): inward force proportional to penetration into the
50-pixel margin. -/
def boundaryForce (p : BoidParams K) (b : Boid K) : K × K :=
  let m : K := 50
  let fx :=
    if b.x < m then (m - b.x) / m * (1 / 2)
    else if b.x > p.width - m then -((b.x - (p.width - m)) / m * (1 / 2))
    else 0
  let fy :=
    if b.y < m then (m - b.y) / m * (1 / 2)
    else if b.y > p.height - m then -((b.y - (p.height - m)) / m * (1 / 2))
    else 0
  (fx, fy)

/-- The force block of updateBoids for one boid: reset acceleration, gather
neighbors, apply the three flocking rules plus mouse attraction and the
boundary force, then clamp the magnitude to maxForce. -/
def computeForces (sq : K → K) (p : BoidParams K) (mouseDown : Bool)
    (mouse : K × K) (boids : List (Boid K)) (b : Boid K) (idx : Nat) : K × K :=
  let neighbors := getNeighbors sq p boids b idx
  let sep := separate sq p b neighbors
  let ali := align sq p b neighbors
  let coh := seek sq p b (getCenterOfMass neighbors)
  let a0 : K × K := (0, 0)
  let a1 :=
    if mouseDown then
      let ma := seek sq p b mouse
      (a0.1 + ma.1 * 2, a0.2 + ma.2 * 2)
    else a0
  let a2 :=
    (a1.1 + sep.1 * p.separationWeight + ali.1 * p.alignmentWeight + coh.1 * p.cohesionWeight,
     a1.2 + sep.2 * p.separationWeight + ali.2 * p.alignmentWeight + coh.2 * p.cohesionWeight)
  let bf := boundaryForce p b
  let a3 := (a2.1 + bf.1, a2.2 + bf.2)
  let fm := sq (a3.1 * a3.1 + a3.2 * a3.2)
  if fm > p.maxForce then (a3.1 / fm * p.maxForce, a3.2 / fm * p.maxForce) else a3

/-- Store a computed acceleration on a boid. -/
def Boid.setAcc (b : Boid K) (a : K × K) : Boid K :=
  { b with ax := a.1, ay := a.2 }

/-- Forget the acceleration accumulator (used to state that force computation
reads only positions and velocities). -/
def Boid.strip (b : Boid K) : Boid K :=
  { b with ax := 0, ay := 0 }

/-- One step of the first loop of updateBoids: write boid i's acceleration,
computed against the current (partially force-updated) array, exactly as the
in-place JavaScript iteration does. -/
def forceStep (sq : K → K) (p : BoidParams K) (mouseDown : Bool) (mouse : K × K)
    (acc : List (Boid K)) (i : Nat) : List (Boid K) :=
  match acc[i]? with
  | none => acc
  | some b => acc.set i (Boid.setAcc b (computeForces sq p mouseDown mouse acc b i))

/-- The first loop of updateBoids (force accumulation), as in-place iteration. -/
def forcePhase (sq : K → K) (p : BoidParams K) (mouseDown : Bool) (mouse : K × K)
    (boids : List (Boid K)) : List (Boid K) :=
  (List.range boids.length).foldl (forceStep sq p mouseDown mouse) boids

/-- The integration part of the second loop of updateBoids: velocity update,
speed clamp to maxSpeed, Euler position step, and edge wrap-around. -/
def integrate (sq : K → K) (p : BoidParams K) (b : Boid K) : Boid K :=
  let vx := b.vx + b.ax
  let vy := b.vy + b.ay
  let speed := sq (vx * vx + vy * vy)
  let vx2 := if speed > p.maxSpeed then vx / speed * p.maxSpeed else vx
  let vy2 := if speed > p.maxSpeed then vy / speed * p.maxSpeed else vy
  let x1 := b.x + vx2
  let y1 := b.y + vy2
  let x2 := if x1 < 0 then p.width else x1
  let x3 := if x2 > p.width then 0 else x2
  let y2 := if y1 < 0 then p.height else y1
  let y3 := if y2 > p.height then 0 else y2
  { b with x := x3, y := y3, vx := vx2, vy := vy2 }

/-- The trail update of the second loop of updateBoids for one boid: push the
new position and evict the oldest entry past trailLength, or clear the trail
when trails are disabled. -/
def updateTrail (p : BoidParams K) (b2 : Boid K) (tr : List (K × K)) : List (K × K) :=
  if p.showTrails then
    let tr2 := tr ++ [(b2.x, b2.y)]
    if tr2.length > p.trailLength then tr2.tail else tr2
  else []

/-- One step of the second loop of updateBoids: integrate boid i and update
its trail entry. -/
def moveStep (sq : K → K) (p : BoidParams K)
    (st : List (Boid K) × List (List (K × K))) (i : Nat) :
    List (Boid K) × List (List (K × K)) :=
  match st.1[i]? with
  | none => st
  | some b =>
    let b2 := integrate sq p b
    (st.1.set i b2, st.2.set i (updateTrail p b2 (st.2.getD i [])))

/-- The second loop of updateBoids (integration plus trails). -/
def movePhase (sq : K → K) (p : BoidParams K) (boids : List (Boid K))
    (trails : List (List (K × K))) : List (Boid K) × List (List (K × K)) :=
  (List.range boids.length).foldl (moveStep sq p) (boids, trails)

/-- The mutable simulation state owned by the boids tick: the agent array and
the parallel trails array. -/
structure BoidsState (K : Type) where
  boids : List (Boid K)
  trails : List (List (K × K))
deriving DecidableEq

/-- updateBoids(): the full per-frame tick (early return when paused, then the
force loop followed by the integration loop). -/
def updateBoids (sq : K → K) (p : BoidParams K) (mouseDown : Bool) (mouse : K × K)
    (paused : Bool) (st : BoidsState K) : BoidsState K :=
  if paused then st
  else
    let bs1 := forcePhase sq p mouseDown mouse st.boids
    let mt := movePhase sq p bs1 st.trails
    ⟨mt.1, mt.2⟩

/-- Modelled from the spec: the double-buffered force phase — every boid's
acceleration is computed from the unmodified start-of-tick array. -/
def forcePhaseSnapshot (sq : K → K) (p : BoidParams K) (mouseDown : Bool)
    (mouse : K × K) (boids : List (Boid K)) : List (Boid K) :=
  boids.enum.map (fun q => Boid.setAcc q.2 (computeForces sq p mouseDown mouse boids q.2 q.1))

/-- Modelled from the spec: a tick that computes all forces from the
start-of-tick snapshot before moving any agent. -/
def updateBoidsSnapshot (sq : K → K) (p : BoidParams K) (mouseDown : Bool)
    (mouse : K × K) (paused : Bool) (st : BoidsState K) : BoidsState K :=
  if paused then st
  else
    let bs1 := forcePhaseSnapshot sq p mouseDown mouse st.boids
    let mt := movePhase sq p bs1 st.trails
    ⟨mt.1, mt.2⟩

/-- createBoids(): build boidCount boids (spawn injected for randomness) and
one empty trail per boid. -/
def createBoids (spawn : Nat → Boid K) (n : Nat) : BoidsState K :=
  ⟨(List.range n).map spawn, (List.range n).map (fun _ => [])⟩

/-- The effective end index of JavaScript Array.prototype.slice(0, e):
a negative e counts from the end, clamped at 0. -/
def jsSliceEnd (len : Nat) (e : Int) : Nat :=
  if e < 0 then ((len : Int) + e).toNat else min e.toNat len

/-- arr.slice(0, e) with JavaScript end semantics. -/
def jsSlice0 {α : Type} (l : List α) (e : Int) : List α :=
  l.take (jsSliceEnd l.length e)

/-- adjustBoidCount(): grow by pushing spawned boids with empty trails, or
shrink both arrays with slice(0, target).  The target is parseInt output and
is modelled as an arbitrary integer. -/
def adjustBoidCount (spawn : Nat → Boid K) (st : BoidsState K) (target : Int) :
    BoidsState K :=
  let current : Int := st.boids.length
  if target > current then
    let k := (target - current).toNat
    ⟨st.boids ++ (List.range k).map (fun j => spawn (st.boids.length + j)),
     st.trails ++ (List.range k).map (fun _ => [])⟩
  else if target < current then
    ⟨jsSlice0 st.boids target, jsSlice0 st.trails target⟩
  else st

/-- The pause button handler shared verbatim by the boids, ant-colony and
aquarium pages: this.isPaused = !this.isPaused. -/
def pauseToggle (isPaused : Bool) : Bool := !isPaused

/-! ## Aquarium ecosystem (the unnamed aquarium source file) -/

/-- The four creature kinds of the aquarium. -/
inductive FType
  | small
  | medium
  | large
  | shark
deriving DecidableEq

/-- The per-kind constants of this.fishTypes used by the simulation logic. -/
structure FishKind (K : Type) where
  size : K
  speed : K
  fearFactor : K

/-- this.fishTypes (colors and the unused schooling flag omitted: the tick
dispatches on fish.type directly, never on the flag). -/
def fishTypes : FType → FishKind K
  | FType.small => ⟨8, 3 / 2, 2⟩
  | FType.medium => ⟨15, 6 / 5, 3 / 2⟩
  | FType.large => ⟨25, 4 / 5, 1⟩
  | FType.shark => ⟨40, 2, 0⟩

/-- One aquarium creature, mirroring createSingleFish.  The id field models
JavaScript object identity (=== comparisons and indexOf); color is omitted
(render-only), and targetFood / lastPheromoneTime are omitted because they are
written but never read by the simulation. -/
structure Fish (K : Type) where
  id : Nat
  x : K
  y : K
  vx : K
  vy : K
  angle : K
  ftype : FType
  size : K
  speed : K
  schoolId : Int
  fearLevel : K
  huntCooldown : Nat
  trail : List (K × K × K)
  swimPhase : K
  depth : K
deriving DecidableEq

/-- A falling food particle (dropFood). -/
structure Food (K : Type) where
  x : K
  y : K
  size : K
  fallSpeed : K
  life : Int
deriving DecidableEq

/-- The aquarium parameters read during a tick (this.params plus canvas size). -/
structure AqParams (K : Type) where
  schoolingStrength : K
  fearRadius : K
  panicResponse : K
  swimmingSpeed : K
  currentStrength : K
  huntingAggression : K
  followMouse : Bool
  showTrails : Bool
  width : K
  height : K

/-- The injected environment of the aquarium tick: Math.sqrt, Math.sin,
Math.cos, Math.atan2 and Math.random (as a stream, per the spec's
injectable-randomness note). -/
structure AqCtx (K : Type) where
  sq : K → K
  sinF : K → K
  cosF : K → K
  atan2 : K → K → K
  rng : Nat → K

/-- calculateSchoolingForce(fish): separation, alignment and cohesion over
same-school neighbors within 60 pixels (self excluded by object identity). -/
def calculateSchoolingForce (ctx : AqCtx K) (f : Fish K) (allFish : List (Fish K)) : K × K :=
  let acc := allFish.foldl
    (fun (st : (K × K) × (K × K) × (K × K) × Nat) other =>
      if other.id = f.id ∨ other.schoolId ≠ f.schoolId then st
      else
        let dx := other.x - f.x
        let dy := other.y - f.y
        let distance := ctx.sq (dx * dx + dy * dy)
        if distance < 60 then
          let sep :=
            if distance < 20 ∧ 0 < distance then
              (st.1.1 - dx / distance, st.1.2 - dy / distance)
            else st.1
          ((sep.1, sep.2), (st.2.1.1 + other.vx, st.2.1.2 + other.vy),
           (st.2.2.1.1 + dx, st.2.2.1.2 + dy), st.2.2.2 + 1)
        else st)
    ((0, 0), (0, 0), (0, 0), 0)
  let sep := acc.1
  let ali := acc.2.1
  let coh := acc.2.2.1
  let neighbors := acc.2.2.2
  if 0 < neighbors then
    let sepX := sep.1 * 2
    let sepY := sep.2 * 2
    let aliX := (ali.1 / (neighbors : K) - f.vx) * (1 / 2)
    let aliY := (ali.2 / (neighbors : K) - f.vy) * (1 / 2)
    let cohX := coh.1 / (neighbors : K) * (1 / 100)
    let cohY := coh.2 / (neighbors : K) * (1 / 100)
    (sepX + aliX + cohX, sepY + aliY + cohY)
  else (0, 0)

/-- calculateFearForce(fish): repulsion from each shark inside fearRadius with
a panic multiplier, together with the fear level the loop accumulates on the
fish (the JavaScript mutates fish.fearLevel in place). -/
def calculateFearForce (ctx : AqCtx K) (fearRadius panicResponse : K)
    (f : Fish K) (sharks : List (Fish K)) : (K × K) × K :=
  let fearFactor := (fishTypes f.ftype).fearFactor
  sharks.foldl
    (fun (st : (K × K) × K) shark =>
      let dx := shark.x - f.x
      let dy := shark.y - f.y
      let distance := ctx.sq (dx * dx + dy * dy)
      if distance < fearRadius ∧ 0 < distance then
        let intensity := (fearRadius - distance) / fearRadius
        let panicMultiplier := if st.2 > 1 / 2 then panicResponse else 1
        ((st.1.1 - dx / distance * intensity * fearFactor * panicMultiplier,
          st.1.2 - dy / distance * intensity * fearFactor * panicMultiplier),
         min (st.2 + intensity * (1 / 10)) 1)
      else st)
    ((0, 0), f.fearLevel)

/-- calculateHuntingForce(shark): unit pursuit force (scaled by 2) toward the
closest fish within 150 pixels; the fold models the running-minimum search
that starts from Infinity. -/
def calculateHuntingForce (ctx : AqCtx K) (shark : Fish K) (fish : List (Fish K)) : K × K :=
  let closest := fish.foldl
    (fun (st : Option (Fish K × K)) f =>
      let dx := f.x - shark.x
      let dy := f.y - shark.y
      let distance := ctx.sq (dx * dx + dy * dy)
      let better : Bool :=
        match st with
        | none => true
        | some q => decide (distance < q.2)
      if distance < 150 ∧ better then some (f, distance) else st)
    none
  match closest with
  | none => (0, 0)
  | some q =>
    let dx := q.1.x - shark.x
    let dy := q.1.y - shark.y
    let distance := ctx.sq (dx * dx + dy * dy)
    if 0 < distance then ((dx / distance) * 2, (dy / distance) * 2) else (0, 0)

/-- calculateFoodAttraction(fish). -/
def calculateFoodAttraction (ctx : AqCtx K) (f : Fish K) (foods : List (Food K)) : K × K :=
  foods.foldl
    (fun (st : K × K) food =>
      let dx := food.x - f.x
      let dy := food.y - f.y
      let distance := ctx.sq (dx * dx + dy * dy)
      if distance < 80 ∧ 0 < distance then
        let intensity := (80 - distance) / 80
        (st.1 + dx / distance * intensity * (1 / 2), st.2 + dy / distance * intensity * (1 / 2))
      else st)
    (0, 0)

/-- calculateMouseAttraction(fish). -/
def calculateMouseAttraction (ctx : AqCtx K) (f : Fish K) (mouse : K × K) : K × K :=
  let dx := mouse.1 - f.x
  let dy := mouse.2 - f.y
  let distance := ctx.sq (dx * dx + dy * dy)
  if 0 < distance ∧ distance < 200 then
    let intensity := (200 - distance) / 200
    (dx / distance * intensity, dy / distance * intensity)
  else (0, 0)

/-- calculateBoundaryForce(entity): inward force proportional to penetration
into the 50-pixel margin (no 0.5 factor, unlike the boids variant). -/
def calculateBoundaryForce (width height ex ey : K) : K × K :=
  let m : K := 50
  let fx :=
    if ex < m then (m - ex) / m
    else if ex > width - m then -((ex - (width - m)) / m)
    else 0
  let fy :=
    if ey < m then (m - ey) / m
    else if ey > height - m then -((ey - (height - m)) / m)
    else 0
  (fx, fy)

/-- The body of the updateFish loop for one fish: swim-phase advance, force
accumulation (schooling, fear, food, mouse, current, boundary), velocity
update with speed clamp at fish.speed * swimmingSpeed, Euler position step,
angle update, trail update and fear decay.  The school-center statistics
bookkeeping is omitted (it only feeds stats.schoolsFormed). -/
def fishStep (ctx : AqCtx K) (p : AqParams K) (sharks : List (Fish K))
    (foods : List (Food K)) (mouse : K × K) (time : K)
    (allFish : List (Fish K)) (f : Fish K) : Fish K :=
  let swimPhase := f.swimPhase + 1 / 10
  let school :=
    if f.ftype = FType.small ∧ 0 < p.schoolingStrength then calculateSchoolingForce ctx f allFish
    else (0, 0)
  let fear := calculateFearForce ctx p.fearRadius p.panicResponse f sharks
  let foodF := calculateFoodAttraction ctx f foods
  let mouseF := if p.followMouse then calculateMouseAttraction ctx f mouse else (0, 0)
  let currentX := p.currentStrength * (ctx.sinF (time * (1 / 2) + f.x * (1 / 100)) * (1 / 10))
  let currentY := p.currentStrength * (ctx.cosF (time * (3 / 10) + f.y * (1 / 100)) * (1 / 20))
  let bf := calculateBoundaryForce p.width p.height f.x f.y
  let forceX := school.1 * p.schoolingStrength + fear.1.1 + foodF.1 + mouseF.1 * (1 / 2) + currentX + bf.1
  let forceY := school.2 * p.schoolingStrength + fear.1.2 + foodF.2 + mouseF.2 * (1 / 2) + currentY + bf.2
  let vx := f.vx + forceX * (1 / 10)
  let vy := f.vy + forceY * (1 / 10)
  let speed := ctx.sq (vx * vx + vy * vy)
  let maxSpeed := f.speed * p.swimmingSpeed
  let vx2 := if speed > maxSpeed then vx / speed * maxSpeed else vx
  let vy2 := if speed > maxSpeed then vy / speed * maxSpeed else vy
  let x2 := f.x + vx2
  let y2 := f.y + vy2
  let angle2 := if 1 / 10 < |vx2| ∨ 1 / 10 < |vy2| then ctx.atan2 vy2 vx2 else f.angle
  let trail2 :=
    if p.showTrails then
      let t := f.trail ++ [(x2, y2, time)]
      if t.length > 20 then t.tail else t
    else f.trail
  { f with x := x2, y := y2, vx := vx2, vy := vy2, angle := angle2,
           swimPhase := swimPhase, trail := trail2, fearLevel := fear.2 * (19 / 20) }

/-- updateFish(): the in-place loop of the source — fish i's forces are
computed against the array in which fish 0 .. i-1 have already moved. -/
def updateFishInPlace (ctx : AqCtx K) (p : AqParams K) (sharks : List (Fish K))
    (foods : List (Food K)) (mouse : K × K) (time : K)
    (fish : List (Fish K)) : List (Fish K) :=
  (List.range fish.length).foldl
    (fun acc i =>
      match acc[i]? with
      | none => acc
      | some f => acc.set i (fishStep ctx p sharks foods mouse time acc f))
    fish

/-- Modelled from the spec: the double-buffered fish tick — every fish's
forces observe the start-of-tick array. -/
def updateFishSnapshot (ctx : AqCtx K) (p : AqParams K) (sharks : List (Fish K))
    (foods : List (Food K)) (mouse : K × K) (time : K)
    (fish : List (Fish K)) : List (Fish K) :=
  fish.map (fishStep ctx p sharks foods mouse time fish)

/-- checkSharkCatches(shark): the backwards splice loop removes every fish
strictly closer than shark.size and counts each one (stats.fishEaten++). -/
def checkSharkCatches (sq : K → K) (shark : Fish K) (fish : List (Fish K)) :
    List (Fish K) × Nat :=
  fish.foldr
    (fun f (st : List (Fish K) × Nat) =>
      let dx := shark.x - f.x
      let dy := shark.y - f.y
      let distance := sq (dx * dx + dy * dy)
      if distance < shark.size then (st.1, st.2 + 1) else (f :: st.1, st.2))
    ([], 0)

/-- The body of the updateSharks loop for one shark (index i, random jitter
drawn from the injected stream): hunting force only while huntCooldown is
zero (otherwise the cooldown decrements), then integration with speed clamp,
and finally checkSharkCatches — which runs every tick regardless of the
cooldown and sets it to 180 on any catch. -/
def sharkStep (ctx : AqCtx K) (p : AqParams K) (fish : List (Fish K)) (i : Nat)
    (shark : Fish K) : Fish K × List (Fish K) × Nat :=
  let swimPhase := shark.swimPhase + 2 / 25
  let hunt :=
    if shark.huntCooldown = 0 then
      let h := calculateHuntingForce ctx shark fish
      (h.1 * p.huntingAggression, h.2 * p.huntingAggression)
    else (0, 0)
  let cd1 := if shark.huntCooldown = 0 then shark.huntCooldown else shark.huntCooldown - 1
  let jx := (ctx.rng (2 * i) - 1 / 2) * (1 / 10)
  let jy := (ctx.rng (2 * i + 1) - 1 / 2) * (1 / 10)
  let bf := calculateBoundaryForce p.width p.height shark.x shark.y
  let forceX := hunt.1 + jx + bf.1
  let forceY := hunt.2 + jy + bf.2
  let vx := shark.vx + forceX * (1 / 10)
  let vy := shark.vy + forceY * (1 / 10)
  let speed := ctx.sq (vx * vx + vy * vy)
  let maxSpeed := shark.speed * p.swimmingSpeed
  let vx2 := if speed > maxSpeed then vx / speed * maxSpeed else vx
  let vy2 := if speed > maxSpeed then vy / speed * maxSpeed else vy
  let x2 := shark.x + vx2
  let y2 := shark.y + vy2
  let angle2 := if 1 / 10 < |vx2| ∨ 1 / 10 < |vy2| then ctx.atan2 vy2 vx2 else shark.angle
  let shark2 := { shark with x := x2, y := y2, vx := vx2, vy := vy2,
                             angle := angle2, swimPhase := swimPhase, huntCooldown := cd1 }
  let catches := checkSharkCatches ctx.sq shark2 fish
  let shark3 := if 0 < catches.2 then { shark2 with huntCooldown := 180 } else shark2
  (shark3, catches.1, catches.2)

/-- updateSharks(): the in-place loop over the sharks array; catches remove
fish and bump the fishEaten counter. -/
def updateSharks (ctx : AqCtx K) (p : AqParams K)
    (sharks fish : List (Fish K)) (eaten : Nat) :
    List (Fish K) × List (Fish K) × Nat :=
  (List.range sharks.length).foldl
    (fun (acc : List (Fish K) × List (Fish K) × Nat) i =>
      match acc.1[i]? with
      | none => acc
      | some s =>
        let r := sharkStep ctx p acc.2.1 i s
        (acc.1.set i r.1, r.2.1, acc.2.2 + r.2.2))
    (sharks, fish, eaten)

/-- scareNearbyFish(x, y) for one fish.  Inside the 100-pixel radius the code
subtracts (dx / distance) * 5 from the velocity with no zero-distance guard;
a result of none models the non-finite (NaN) velocity JavaScript produces
from 0/0 when the scare point coincides with the fish. -/
def scareFishStep (sq : K → K) (px py : K) (f : Fish K) : Option (Fish K) :=
  let dx := px - f.x
  let dy := py - f.y
  let distance := sq (dx * dx + dy * dy)
  if distance < 100 then
    if distance = 0 then none
    else some { f with fearLevel := 1,
                       vx := f.vx - dx / distance * 5,
                       vy := f.vy - dy / distance * 5 }
  else some f

/-- scareNearbyFish(x, y) over the whole population. -/
def scareNearbyFish (sq : K → K) (px py : K) (fish : List (Fish K)) :
    List (Option (Fish K)) :=
  fish.map (scareFishStep sq px py)

/-- How many fish of kind k are in the list (the .filter(...).length idiom of
adjustFishPopulation). -/
def countKind (k : FType) (fish : List (Fish K)) : Nat :=
  (fish.filter (fun f => decide (f.ftype = k))).length

/-- One iteration of the shrink loop of adjustFishPopulation: pop the last
element of the filtered copy and splice it out of the fish array (indexOf on
object identity; List.erase removes the structurally identical entry). -/
def removeLastOfKind (k : FType) (fish : List (Fish K)) : List (Fish K) :=
  match (fish.filter (fun f => decide (f.ftype = k))).getLast? with
  | none => fish
  | some f => fish.erase f

/-- The shrink while-loop, run a fixed number of times (the loop removes one
fish of the kind per iteration, so it runs current - target times). -/
def shrinkKind (k : FType) : Nat → List (Fish K) → List (Fish K)
  | 0, fish => fish
  | n + 1, fish => shrinkKind k n (removeLastOfKind k fish)

/-- The per-kind block of adjustFishPopulation: grow by pushing newly created
fish while below target, then shrink while above it. -/
def adjustKind (k : FType) (target : Nat) (mk : Nat → Fish K)
    (fish : List (Fish K)) : List (Fish K) :=
  let cur := countKind k fish
  let grown := fish ++ (List.range (target - cur)).map mk
  shrinkKind k (countKind k grown - target) grown

/-- adjustSharkPopulation(): push created sharks while below target, pop while
above it. -/
def adjustSharkPopulation (target : Nat) (mk : Nat → Fish K)
    (sharks : List (Fish K)) : List (Fish K) :=
  (sharks ++ (List.range (target - sharks.length)).map mk).take target

/-! ## Ant colony (src/public/scripts/ant-colony.js) -/

/-- The two pheromone channels of a grid cell. -/
inductive Channel
  | toFood
  | toNest
deriving DecidableEq

/-- One cell of the pheromone grid. -/
structure PherCell (K : Type) where
  toFood : K
  toNest : K
deriving DecidableEq

/-- Read a channel of a cell. -/
def PherCell.chan (c : PherCell K) : Channel → K
  | Channel.toFood => c.toFood
  | Channel.toNest => c.toNest

/-- The pheromone field: a flat row-major cell array with its width in cells
and the world-units-per-cell resolution (4 in the source). -/
structure PherGrid (K : Type) where
  cells : List (PherCell K)
  gridWidth : Nat
  resolution : K
deriving DecidableEq

/-- The ant-colony parameters read during a tick (this.params plus canvas
size). -/
structure AntParams (K : Type) where
  antSpeed : K
  pheromoneStrength : K
  evaporationRate : K
  explorationRate : K
  pheromoneSensitivity : K
  searchRadius : K
  width : K
  height : K

/-- The injected environment of the ant tick: Math.sqrt / sin / cos / atan2,
Math.random as a stream, and the value of Math.PI. -/
structure AntsCtx (K : Type) where
  sq : K → K
  sinF : K → K
  cosF : K → K
  atan2 : K → K → K
  rng : Nat → K
  piK : K

/-- One ant (targetFood and lastPheromoneTime omitted: both are written but
never read by the simulation). -/
structure Ant (K : Type) where
  x : K
  y : K
  angle : K
  hasFood : Bool
deriving DecidableEq

/-- A clickable food source. -/
structure AntFood (K : Type) where
  x : K
  y : K
  amount : K
  maxAmount : K
deriving DecidableEq

section AntDefs

variable [FloorRing K]

/-- dropPheromone(ant): locate the containing cell by flooring the scaled
coordinates into the flat row-major index and add pheromoneStrength to the
appropriate channel; the source guards only 0 <= index < length. -/
def dropPheromone (strength : K) (g : PherGrid K) (hasFood : Bool) (x y : K) :
    PherGrid K :=
  let gridX : Int := ⌊x / g.resolution⌋
  let gridY : Int := ⌊y / g.resolution⌋
  let index : Int := gridY * g.gridWidth + gridX
  if 0 ≤ index ∧ index < g.cells.length then
    match g.cells[index.toNat]? with
    | none => g
    | some c =>
      let c2 :=
        if hasFood then { c with toFood := c.toFood + strength }
        else { c with toNest := c.toNest + strength * (3 / 10) }
      { g with cells := g.cells.set index.toNat c2 }
  else g

/-- The per-point cell read inside samplePheromone: the channel value at the
containing cell, or 0 when the flat-index guard rejects the position (the
source skips such sample points, which contributes nothing against the
running maximum initialized to 0). -/
def pheromoneLevelAt (g : PherGrid K) (x y : K) (ch : Channel) : K :=
  let gridX : Int := ⌊x / g.resolution⌋
  let gridY : Int := ⌊y / g.resolution⌋
  let index : Int := gridY * g.gridWidth + gridX
  if 0 ≤ index ∧ index < g.cells.length then
    match g.cells[index.toNat]? with
    | none => 0
    | some c => c.chan ch
  else 0

/-- samplePheromone(ant, type): probe 16 headings k * PI/8 at searchRadius,
keep the heading with the strictly largest level, and return it only when
that level beats the sensitivity threshold. -/
def samplePheromone (ctx : AntsCtx K) (p : AntParams K) (g : PherGrid K)
    (ax ay : K) (ch : Channel) : Option K :=
  let best := (List.range 16).foldl
    (fun (st : K × Option K) k =>
      let angle := (k : K) * (ctx.piK / 8)
      let checkX := ax + ctx.cosF angle * p.searchRadius
      let checkY := ay + ctx.sinF angle * p.searchRadius
      let level := pheromoneLevelAt g checkX checkY ch
      if level > st.1 then (level, some angle) else st)
    (0, none)
  if best.1 > 1 / p.pheromoneSensitivity then best.2 else none

/-- updateExploringAnt(ant): grab food when within 15 pixels of a non-empty
source (decrementing and possibly removing it, then turning toward the nest),
otherwise follow the best toFood heading or jitter.  The JavaScript truthiness
test treats a returned heading of 0 as "no direction".  The Nat argument and
results thread the position in the injected random stream. -/
def updateExploringAnt (ctx : AntsCtx K) (p : AntParams K) (g : PherGrid K)
    (nest : K × K) (foods : List (AntFood K)) (a : Ant K) (ctr : Nat) :
    Ant K × List (AntFood K) × Nat :=
  match foods.findIdx? (fun food =>
      decide (ctx.sq ((a.x - food.x) * (a.x - food.x) + (a.y - food.y) * (a.y - food.y)) < 15
        ∧ 0 < food.amount)) with
  | some i =>
    let food := foods.getD i ⟨0, 0, 0, 0⟩
    let food2 := { food with amount := food.amount - 1 }
    let foods2 := if food2.amount ≤ 0 then foods.eraseIdx i else foods.set i food2
    let na := ctx.atan2 (nest.2 - a.y) (nest.1 - a.x) + (ctx.rng ctr - 1 / 2) * (1 / 2)
    ({ a with hasFood := true, angle := na }, foods2, ctr + 1)
  | none =>
    match samplePheromone ctx p g a.x a.y Channel.toFood with
    | some d =>
      if d = 0 then
        ({ a with angle := a.angle + (ctx.rng ctr - 1 / 2) * (3 / 10) }, foods, ctr + 1)
      else if ctx.rng ctr > p.explorationRate then
        ({ a with angle := d }, foods, ctr + 1)
      else
        ({ a with angle := a.angle + (ctx.rng (ctr + 1) - 1 / 2) * (3 / 10) }, foods, ctr + 2)
    | none =>
      ({ a with angle := a.angle + (ctx.rng ctr - 1 / 2) * (3 / 10) }, foods, ctr + 1)

/-- updateReturningAnt(ant): deliver when within 20 pixels of the nest
(foodCollected++ and a fresh random heading), otherwise follow the best
toNest heading or head home with jitter.  Returns the delivery increment. -/
def updateReturningAnt (ctx : AntsCtx K) (p : AntParams K) (g : PherGrid K)
    (nest : K × K) (a : Ant K) (ctr : Nat) : Ant K × Nat × Nat :=
  let distToNest := ctx.sq ((a.x - nest.1) * (a.x - nest.1) + (a.y - nest.2) * (a.y - nest.2))
  if distToNest < 20 then
    ({ a with hasFood := false, angle := ctx.rng ctr * ctx.piK * 2 }, 1, ctr + 1)
  else
    match samplePheromone ctx p g a.x a.y Channel.toNest with
    | some d =>
      if d = 0 then
        ({ a with angle := ctx.atan2 (nest.2 - a.y) (nest.1 - a.x) + (ctx.rng ctr - 1 / 2) * (1 / 5) },
         0, ctr + 1)
      else if ctx.rng ctr > p.explorationRate then
        ({ a with angle := d }, 0, ctr + 1)
      else
        ({ a with angle := ctx.atan2 (nest.2 - a.y) (nest.1 - a.x) + (ctx.rng (ctr + 1) - 1 / 2) * (1 / 5) },
         0, ctr + 2)
    | none =>
      ({ a with angle := ctx.atan2 (nest.2 - a.y) (nest.1 - a.x) + (ctx.rng ctr - 1 / 2) * (1 / 5) },
       0, ctr + 1)

/-- The accumulator threaded through the updateAnts loop: processed ants, the
grid (receiving deposits), food sources, the statistics counters and the
random-stream position. -/
structure AntPass (K : Type) where
  done : List (Ant K)
  grid : PherGrid K
  foods : List (AntFood K)
  collected : Nat
  exploring : Nat
  returning : Nat
  ctr : Nat

/-- The body of the updateAnts loop for one ant: branch on hasFood, move by
antSpeed along the heading, clamp to the canvas, then drop a pheromone at the
new position (toFood when carrying, 0.3 * strength toNest otherwise). -/
def antStep (ctx : AntsCtx K) (p : AntParams K) (nestX nestY : K)
    (pass : AntPass K) (a : Ant K) : AntPass K :=
  let r :=
    if a.hasFood then
      let q := updateReturningAnt ctx p pass.grid (nestX, nestY) a pass.ctr
      (q.1, pass.foods, pass.collected + q.2.1, 0, 1, q.2.2)
    else
      let q := updateExploringAnt ctx p pass.grid (nestX, nestY) pass.foods a pass.ctr
      (q.1, q.2.1, pass.collected, 1, 0, q.2.2)
  let a2 := r.1
  let x2 := max 0 (min p.width (a2.x + ctx.cosF a2.angle * p.antSpeed))
  let y2 := max 0 (min p.height (a2.y + ctx.sinF a2.angle * p.antSpeed))
  let a3 := { a2 with x := x2, y := y2 }
  let g2 := dropPheromone p.pheromoneStrength pass.grid a3.hasFood a3.x a3.y
  { done := pass.done ++ [a3], grid := g2, foods := r.2.1,
    collected := r.2.2.1, exploring := pass.exploring + r.2.2.2.1,
    returning := pass.returning + r.2.2.2.2.1, ctr := r.2.2.2.2.2 }

/-- The whole ant-colony simulation state touched by one frame. -/
structure AntsState (K : Type) where
  ants : List (Ant K)
  grid : PherGrid K
  foods : List (AntFood K)
  nestX : K
  nestY : K
  foodCollected : Nat
  exploringAnts : Nat
  returningAnts : Nat
  activeTrails : Nat
  isPaused : Bool

/-- updateAnts(): early return when paused, then the sequential per-ant loop
(every deposit of the tick happens here). -/
def updateAnts (ctx : AntsCtx K) (p : AntParams K) (st : AntsState K) : AntsState K :=
  if st.isPaused then st
  else
    let pass := st.ants.foldl (antStep ctx p st.nestX st.nestY)
      ⟨[], st.grid, st.foods, st.foodCollected, 0, 0, 0⟩
    { st with ants := pass.done, grid := pass.grid, foods := pass.foods,
              foodCollected := pass.collected, exploringAnts := pass.exploring,
              returningAnts := pass.returning }

/-- The evaporation step applied to one cell: both channels are multiplied by
(1 - evaporationRate). -/
def decayCell (rate : K) (c : PherCell K) : PherCell K :=
  ⟨c.toFood * (1 - rate), c.toNest * (1 - rate)⟩

/-- updatePheromones(): early return when paused, then decay every cell and
count the active trails (post-decay values above 0.1). -/
def updatePheromones (p : AntParams K) (st : AntsState K) : AntsState K :=
  if st.isPaused then st
  else
    let cells2 := st.grid.cells.map (decayCell p.evaporationRate)
    let active := (cells2.filter (fun c => decide (1 / 10 < c.toFood ∨ 1 / 10 < c.toNest))).length
    { st with grid := { st.grid with cells := cells2 }, activeTrails := active }

/-- The simulation part of animate(): updateAnts() then updatePheromones(),
in that order, once per frame. -/
def animateTick (ctx : AntsCtx K) (p : AntParams K) (st : AntsState K) : AntsState K :=
  updatePheromones p (updateAnts ctx p st)

end AntDefs

/-! ## Square-root abstraction and concrete configurations -/

/-- What the theorems below assume about the injected Math.sqrt: on
nonnegative inputs it returns the nonnegative square root.  Real.sqrt
satisfies this. -/
def SqrtOK (sq : K → K) : Prop :=
  ∀ x : K, 0 ≤ x → sq x * sq x = x ∧ 0 ≤ sq x

/-- Squared speed of a boid. -/
def Boid.speedSq (b : Boid K) : K := b.vx * b.vx + b.vy * b.vy

/-- Squared speed of an aquarium creature. -/
def Fish.speedSq (f : Fish K) : K := f.vx * f.vx + f.vy * f.vy

/-- A rational square-root table for the concrete configurations below.  Every
square-root argument actually arising in those evaluations is the square of a
rational; the table returns exactly that root (the relevant entries are
re-verified as conjuncts of the theorems that use them), so on those runs it
coincides with real square root. -/
def sqVals : ℚ → ℚ := fun x =>
  if x = 0 then 0
  else if x = 4 then 2
  else if x = 25 then 5
  else if x = 100 then 10
  else if x = 400 then 20
  else if x = 250000 then 500
  else if x = 9 / 10000 then 3 / 100
  else if x = 361 / 10000 then 19 / 100
  else if x = 1038361 / 10000 then 1019 / 100
  else if x = 325116961 / 10000000000 then 18031 / 100000
  else 0

/-- The default boids parameters of the source (trails disabled to keep the
evaluated state small), over an 800 x 600 canvas. -/
def boidParamsQ : BoidParams ℚ :=
  ⟨2, 3 / 100, 3 / 2, 1, 1, 50, 25, 800, 600, 10, false⟩

/-- A single stationary boid in the interior of the canvas (more than the
50-pixel margin from every edge), with no neighbors, used for the
empty-neighbor-set scenario. -/
def boidLone : Boid ℚ := ⟨300, 400, 0, 0, 0, 0⟩

/-- The boids state holding only boidLone. -/
def stLone : BoidsState ℚ := ⟨[boidLone], [[]]⟩

/-- Aquarium parameters for the concrete runs: schoolingStrength 1,
fearRadius 80, panicResponse 3, swimmingSpeed 1, currentStrength 0 (so the
sinusoidal water-current term vanishes), huntingAggression 1, mouse following
and trails off, 800 x 600 canvas. -/
def aqParamsQ : AqParams ℚ := ⟨1, 80, 3, 1, 0, 1, false, false, 800, 600⟩

/-- A rational aquarium context: the sqVals table for Math.sqrt, the constant
1/2 for Math.random (which zeroes the shark jitter), and zero functions for
the trig entries — the properties evaluated below (positions, velocities,
catch counts) never depend on them, because currentStrength is 0 and the
angle field is only read by the renderer. -/
def aqCtxQ : AqCtx ℚ := ⟨sqVals, fun _ => 0, fun _ => 0, fun _ _ => 0, fun _ => 1 / 2⟩

/-- Two small fish of the same school, 10 pixels apart on a horizontal line,
at rest in the interior of the canvas. -/
def fishA : Fish ℚ := ⟨0, 300, 300, 0, 0, 0, FType.small, 8, 3 / 2, 0, 0, 0, [], 0, 1 / 2⟩

/-- Second member of the school, 10 pixels to the right of fishA. -/
def fishB : Fish ℚ := ⟨1, 310, 300, 0, 0, 0, FType.small, 8, 3 / 2, 0, 0, 0, [], 0, 1 / 2⟩

/-- Two small fish near a shark: 10 and 20 pixels away, both inside the
40-pixel capture distance of the shark. -/
def fishC : Fish ℚ := ⟨2, 110, 100, 0, 0, 0, FType.small, 8, 3 / 2, 0, 0, 0, [], 0, 1 / 2⟩

/-- The second fish inside the capture distance. -/
def fishD : Fish ℚ := ⟨3, 120, 100, 0, 0, 0, FType.small, 8, 3 / 2, 0, 0, 0, [], 0, 1 / 2⟩

/-- A stationary shark of kind size 40 whose huntCooldown is still 100 ticks
from expiring. -/
def sharkCool : Fish ℚ := ⟨5, 100, 100, 0, 0, 0, FType.shark, 40, 2, -1, 0, 100, [], 0, 1 / 2⟩

/-- A 3 x 3 pheromone grid (resolution 4, so world x in [0, 12)) whose cell
at flat index 6 — row 2, column 0 — carries 7 units of toFood pheromone. -/
def cellsC6 : List (PherCell ℚ) :=
  [⟨0, 0⟩, ⟨0, 0⟩, ⟨0, 0⟩, ⟨0, 0⟩, ⟨0, 0⟩, ⟨0, 0⟩, ⟨7, 0⟩, ⟨0, 0⟩, ⟨0, 0⟩]

/-- The grid built from cellsC6. -/
def gridC6 : PherGrid ℚ := ⟨cellsC6, 3, 4⟩

/-- A fixed spawner for boid-population tests (the spawned values are
irrelevant to the counting properties). -/
def spawnQ : Nat → Boid ℚ := fun _ => ⟨0, 0, 0, 0, 0, 0⟩

/-- A two-boid state with paired trails for the population-adjustment run. -/
def stPair : BoidsState ℚ := ⟨[boidLone, ⟨100, 100, 1, 0, 0, 0⟩], [[], []]⟩

/-- A real-valued aquarium context built from the actual analytic functions
(atan2 instantiated by a constant, as no property below depends on it). -/
noncomputable def aqCtxR : AqCtx ℝ :=
  ⟨Real.sqrt, Real.sin, Real.cos, fun _ _ => 0, fun _ => 1 / 2⟩

/-- Real-valued boids parameters for the witness instantiations. -/
noncomputable def boidParamsR : BoidParams ℝ :=
  ⟨2, 3 / 100, 3 / 2, 1, 1, 50, 25, 800, 600, 10, true⟩

/-- Real-valued aquarium parameters for the witness instantiations. -/
noncomputable def aqParamsR : AqParams ℝ := ⟨3 / 2, 80, 3, 6 / 5, 1 / 2, 1, false, true, 800, 600⟩

/-- A real-valued boid for the witness instantiations. -/
noncomputable def boidR : Boid ℝ := ⟨60, 70, 1, 1, 2, 3⟩

/-- A real-valued fish for the witness instantiations. -/
noncomputable def fishR : Fish ℝ := ⟨0, 200, 200, 1, 0, 0, FType.small, 8, 3 / 2, 0, 0, 0, [], 0, 1 / 2⟩

/-- A real-valued shark for the witness instantiations. -/
noncomputable def sharkR : Fish ℝ := ⟨1, 400, 300, 0, 1, 0, FType.shark, 40, 2, -1, 0, 0, [], 0, 1 / 2⟩

/-- adjustFishPopulation(): the three per-kind blocks run in order (small,
then medium, then large), each against the list left by the previous one. -/
def adjustFishPopulation (mkS mkM mkL : Nat → Fish K) (smallT medT largeT : Nat)
    (fish : List (Fish K)) : List (Fish K) :=
  adjustKind FType.large largeT mkL
    (adjustKind FType.medium medT mkM
      (adjustKind FType.small smallT mkS fish))

/-- A concrete small-fish spawner for the population witnesses. -/
def mkSmallQ : Nat → Fish ℚ := fun j => { fishA with id := 100 + j }

/-- Rational ant-colony parameters (the source defaults: speed 1.5, strength
1, evaporation 0.005, exploration 0.1, sensitivity 5, search radius 40). -/
def antParamsQ : AntParams ℚ := ⟨3 / 2, 1, 1 / 200, 1 / 10, 5, 40, 800, 600⟩

/-- A rational ant context (trig entries and PI are irrelevant to the decay
properties evaluated on it). -/
def antsCtxQ : AntsCtx ℚ := ⟨sqVals, fun _ => 0, fun _ => 0, fun _ _ => 0, fun _ => 1 / 2, 0⟩

/-- A one-ant, one-cell ant-colony state with pheromone 1 on both channels. -/
def stAntsQ : AntsState ℚ :=
  ⟨[⟨400, 300, 0, false⟩], ⟨[⟨1, 1⟩], 1, 4⟩, [], 400, 300, 0, 0, 0, 0, false⟩

/-! ## Theorems -/

/-- Claim C9 (counterexample): the only pause operation the simulations expose
is a toggle, so clicking it twice starting from RUNNING ends RUNNING, not
PAUSED — two clicks do not equal one. -/
theorem c9_counterexample :
    pauseToggle (pauseToggle false) = false ∧ pauseToggle false = true ∧
    pauseToggle (pauseToggle false) ≠ pauseToggle false := by
  decide

/-- Claim C9 (corrected): the pause control is an involution on the
RUNNING/PAUSED flag — each click flips the state and two clicks restore it —
and it is never idempotent: a click on an already-paused (or running) loop
always changes the state. -/
theorem c9_pause_toggle_involution :
    (∀ s : Bool, pauseToggle (pauseToggle s) = s) ∧ (∀ s : Bool, pauseToggle s ≠ s) := by
  decide

/-- Claim C6 (code_bug evidence): on the 3-wide grid, position x = 13, y = 5
lies beyond the grid in x (its column index 3 is out of range) while y is
interior, yet the flat row-major index 1 * 3 + 3 = 6 passes the source's
0 <= index < length guard: the deposit lands in the first cell of the next
row instead of being ignored, and the sample read returns that wrapped cell's
content 7 instead of the neutral 0. -/
theorem c6_out_of_bounds_wraps :
    ⌊(13 : ℚ) / 4⌋ = 3 ∧ ¬(⌊(13 : ℚ) / 4⌋ < (gridC6.gridWidth : Int)) ∧
    (dropPheromone 1 gridC6 false 13 5).cells ≠ gridC6.cells ∧
    (dropPheromone 1 gridC6 false 13 5).cells[6]? = some ⟨7, 3 / 10⟩ ∧
    pheromoneLevelAt gridC6 13 5 Channel.toFood = 7 := by
  have h1 : ⌊(13 : ℚ) / 4⌋ = 3 := by rw [Int.floor_eq_iff] <;> norm_num
  have h2 : ⌊(5 : ℚ) / 4⌋ = 1 := by rw [Int.floor_eq_iff] <;> norm_num
  have h3 : ((6 : Int)).toNat = 6 := rfl
  refine ⟨h1, by simp [gridC6, h1], ?_, ?_, ?_⟩
  · simp only [dropPheromone, gridC6, cellsC6]
    rw [h1, h2]
    norm_num [h3, List.set, List.getElem_cons_succ, List.getElem_cons_zero]
  · simp only [dropPheromone, gridC6, cellsC6]
    rw [h1, h2]
    norm_num [h3, List.set, List.getElem_cons_succ, List.getElem_cons_zero]
  · simp only [pheromoneLevelAt, gridC6, cellsC6]
    rw [h1, h2]
    norm_num [h3, List.getElem_cons_succ, List.getElem_cons_zero, PherCell.chan]

/-- Claim C8 (code_bug evidence): a scare event at exactly a fish's position
makes scareNearbyFish divide the zero offset by the zero distance — in
JavaScript 0/0 = NaN, modelled here by the none result — so the fish's
velocity stops being a finite number; by contrast the guarded code paths
(calculateFearForce with a shark at zero distance, the boids seek with a
zero-length desired vector) do resolve the degenerate vector to zero. -/
theorem c8_scare_zero_distance_nan :
    scareFishStep sqVals 300 300 fishA = none ∧
    fishA.x = 300 ∧ fishA.y = 300 ∧
    (calculateFearForce aqCtxQ 80 3 fishA [{ sharkCool with x := 300, y := 300 }]).1 = (0, 0) ∧
    seek sqVals boidParamsQ boidLone (300, 400) = (0, 0) := by
  refine ⟨?_, rfl, rfl, ?_, ?_⟩
  · norm_num [scareFishStep, sqVals, fishA]
  · norm_num [calculateFearForce, aqCtxQ, sqVals, fishA, sharkCool, fishTypes]
  · norm_num [seek, sqVals, boidParamsQ, boidLone]

/-- Claim C7 (counterexample): a population request of -1 on a 2-boid state is
not clamped to zero — Array.prototype.slice(0, -1) keeps all but the last
element, leaving 1 boid. -/
theorem c7_negative_target_not_clamped :
    (adjustBoidCount spawnQ stPair (-1)).boids.length = 1 ∧ (1 : Nat) ≠ 0 := by
  refine ⟨?_, by norm_num⟩
  norm_num [adjustBoidCount, stPair, jsSlice0, jsSliceEnd, spawnQ, boidLone, List.length_take]

/-- After n decay steps a channel value v has been multiplied by (1-rate)^n. -/
theorem decayCell_iterate_toFood (rate v w : K) :
    ∀ n : ℕ, ((decayCell rate)^[n] (⟨v, w⟩ : PherCell K)).toFood = v * (1 - rate) ^ n := by
  intro n
  induction n with
  | zero => simp
  | succ n ih =>
    rw [Function.iterate_succ_apply']
    have : ∀ c : PherCell K, (decayCell rate c).toFood = c.toFood * (1 - rate) := fun c => rfl
    rw [this, ih, pow_succ]
    ring

/-- updateAnts never touches the pause flag. -/
theorem updateAnts_isPaused [FloorRing K] (ctx : AntsCtx K) (p : AntParams K)
    (st : AntsState K) : (updateAnts ctx p st).isPaused = st.isPaused := by
  by_cases h : st.isPaused <;> simp [updateAnts, h]

/-- Claim C5 (confirmed): one unpaused decay pass multiplies every channel of
every cell by exactly (1 - evaporationRate); for a rate in [0,1] no channel
becomes negative; the frame tick is updateAnts (which performs all of the
tick's deposits) followed by exactly one decay pass over the resulting grid;
and for a positive rate the iterated decay of any nonnegative value
eventually drops below any positive bound. -/
theorem c5_decay_exact {K : Type} [LinearOrderedField K] [FloorRing K] [Archimedean K]
    (p : AntParams K) (st : AntsState K)
    (hp : st.isPaused = false)
    (h0 : 0 ≤ p.evaporationRate) (h1 : p.evaporationRate ≤ 1)
    (hnn : ∀ c ∈ st.grid.cells, 0 ≤ c.toFood ∧ 0 ≤ c.toNest) :
    (updatePheromones p st).grid.cells =
      st.grid.cells.map (fun c =>
        ⟨c.toFood * (1 - p.evaporationRate), c.toNest * (1 - p.evaporationRate)⟩) ∧
    (∀ c ∈ (updatePheromones p st).grid.cells, 0 ≤ c.toFood ∧ 0 ≤ c.toNest) ∧
    (∀ ctx : AntsCtx K, (animateTick ctx p st).grid.cells =
      ((updateAnts ctx p st).grid.cells).map (decayCell p.evaporationRate)) ∧
    (0 < p.evaporationRate → ∀ v : K, 0 ≤ v → ∀ ε : K, 0 < ε →
      ∃ n : ℕ, ((decayCell p.evaporationRate)^[n] (⟨v, v⟩ : PherCell K)).toFood < ε) := by
  have hr : (0 : K) ≤ 1 - p.evaporationRate := by linarith
  refine ⟨?_, ?_, ?_, ?_⟩
  · simp [updatePheromones, hp, decayCell]
  · intro c hc
    simp only [updatePheromones, hp, Bool.false_eq_true, if_false, List.mem_map] at hc
    obtain ⟨c0, hc0, rfl⟩ := hc
    exact ⟨mul_nonneg (hnn c0 hc0).1 hr, mul_nonneg (hnn c0 hc0).2 hr⟩
  · intro ctx
    have hp2 : (updateAnts ctx p st).isPaused = false := by
      rw [updateAnts_isPaused, hp]
    simp [animateTick, updatePheromones, hp2]
  · intro hpos v hv ε hε
    rcases eq_or_lt_of_le hv with hv0 | hv0
    · refine ⟨0, ?_⟩
      rw [decayCell_iterate_toFood, pow_zero, mul_one, ← hv0]
      exact hε
    · obtain ⟨n, hn⟩ := exists_pow_lt_of_lt_one (div_pos hε hv0) (by linarith : 1 - p.evaporationRate < 1)
      refine ⟨n, ?_⟩
      rw [decayCell_iterate_toFood]
      calc v * (1 - p.evaporationRate) ^ n < v * (ε / v) := by
            apply mul_lt_mul_of_pos_left hn hv0
        _ = ε := by field_simp

/-- The C5 theorem applied at the concrete rational configuration: rate 1/200
on a one-cell grid holding 1 on each channel. -/
theorem c5_decay_exact_witness :
    stAntsQ.isPaused = false ∧
    ((updatePheromones antParamsQ stAntsQ).grid.cells =
      stAntsQ.grid.cells.map (fun c =>
        ⟨c.toFood * (1 - antParamsQ.evaporationRate), c.toNest * (1 - antParamsQ.evaporationRate)⟩) ∧
    (∀ c ∈ (updatePheromones antParamsQ stAntsQ).grid.cells, 0 ≤ c.toFood ∧ 0 ≤ c.toNest) ∧
    (∀ ctx : AntsCtx ℚ, (animateTick ctx antParamsQ stAntsQ).grid.cells =
      ((updateAnts ctx antParamsQ stAntsQ).grid.cells).map (decayCell antParamsQ.evaporationRate)) ∧
    (0 < antParamsQ.evaporationRate → ∀ v : ℚ, 0 ≤ v → ∀ ε : ℚ, 0 < ε →
      ∃ n : ℕ, ((decayCell antParamsQ.evaporationRate)^[n] (⟨v, v⟩ : PherCell ℚ)).toFood < ε)) :=
  ⟨rfl, c5_decay_exact antParamsQ stAntsQ rfl (by norm_num [antParamsQ])
    (by norm_num [antParamsQ])
    (by intro c hc; simp [stAntsQ] at hc; simp [hc])⟩

/-- A fold of moveStep leaves both array lengths unchanged. -/
theorem movePhase_foldl_lengths (sq : K → K) (p : BoidParams K) :
    ∀ (idx : List Nat) (bs : List (Boid K)) (tr : List (List (K × K))),
      (idx.foldl (moveStep sq p) (bs, tr)).1.length = bs.length ∧
      (idx.foldl (moveStep sq p) (bs, tr)).2.length = tr.length := by
  intro idx
  induction idx with
  | nil => intro bs tr; exact ⟨rfl, rfl⟩
  | cons i rest ih =>
    intro bs tr
    have hstep : (moveStep sq p (bs, tr) i).1.length = bs.length ∧
        (moveStep sq p (bs, tr) i).2.length = tr.length := by
      unfold moveStep
      cases h : bs[i]? <;> simp [h]
    rw [List.foldl_cons]
    exact ⟨(ih _ _).1.trans hstep.1, (ih _ _).2.trans hstep.2⟩

/-- A fold of forceStep leaves the array length unchanged. -/
theorem forcePhase_foldl_length (sq : K → K) (p : BoidParams K) (md : Bool) (m : K × K) :
    ∀ (idx : List Nat) (bs : List (Boid K)),
      (idx.foldl (forceStep sq p md m) bs).length = bs.length := by
  intro idx
  induction idx with
  | nil => intro bs; rfl
  | cons i rest ih =>
    intro bs
    have hstep : (forceStep sq p md m bs i).length = bs.length := by
      unfold forceStep
      cases h : bs[i]? <;> simp [h]
    rw [List.foldl_cons]
    exact (ih _).trans hstep

/-- Claim C10 (confirmed): the trails array always has exactly one entry per
boid — createBoids establishes trails.length = boids.length, adjustBoidCount
and updateBoids preserve it, and under it every trail index used by
renderTrails is a valid boid index. -/
theorem c10_trails_paired :
    (∀ (spawn : Nat → Boid K) (n : Nat),
      (createBoids spawn n).trails.length = (createBoids spawn n).boids.length) ∧
    (∀ (spawn : Nat → Boid K) (st : BoidsState K) (t : Int),
      st.trails.length = st.boids.length →
      (adjustBoidCount spawn st t).trails.length = (adjustBoidCount spawn st t).boids.length) ∧
    (∀ (sq : K → K) (p : BoidParams K) (md : Bool) (m : K × K) (paused : Bool)
      (st : BoidsState K), st.trails.length = st.boids.length →
      (updateBoids sq p md m paused st).trails.length = (updateBoids sq p md m paused st).boids.length) ∧
    (∀ st : BoidsState K, st.trails.length = st.boids.length →
      ∀ i, i < st.trails.length → i < st.boids.length) := by
  refine ⟨?_, ?_, ?_, ?_⟩
  · intro spawn n
    simp [createBoids]
  · intro spawn st t hinv
    simp only [adjustBoidCount]
    split_ifs <;> simp [jsSlice0, jsSliceEnd, hinv, List.length_take]
  · intro sq p md m paused st hinv
    unfold updateBoids
    cases paused with
    | true => simpa using hinv
    | false =>
      simp only [Bool.false_eq_true, if_false]
      have hf : (forcePhase sq p md m st.boids).length = st.boids.length :=
        forcePhase_foldl_length sq p md m (List.range st.boids.length) st.boids
      have hm := movePhase_foldl_lengths sq p
        (List.range (forcePhase sq p md m st.boids).length)
        (forcePhase sq p md m st.boids) st.trails
      show (movePhase sq p (forcePhase sq p md m st.boids) st.trails).2.length =
        (movePhase sq p (forcePhase sq p md m st.boids) st.trails).1.length
      have hm2 : (movePhase sq p (forcePhase sq p md m st.boids) st.trails).2.length =
          st.trails.length := hm.2
      have hm1 : (movePhase sq p (forcePhase sq p md m st.boids) st.trails).1.length =
          (forcePhase sq p md m st.boids).length := hm.1
      rw [hm1, hm2, hinv, hf]
  · intro st hinv i hi
    rw [hinv] at hi
    exact hi

/-- The C10 theorem applied at concrete states: a fresh 3-boid population, a
population adjustment to 5, and one unpaused tick of the 2-boid state, whose
trails array is in each case exactly as long as the boids array. -/
theorem c10_trails_paired_witness :
    ((createBoids spawnQ 3).trails.length = (createBoids spawnQ 3).boids.length) ∧
    ((adjustBoidCount spawnQ stPair 5).trails.length = (adjustBoidCount spawnQ stPair 5).boids.length) ∧
    ((updateBoids sqVals boidParamsQ false (0, 0) false stPair).trails.length =
      (updateBoids sqVals boidParamsQ false (0, 0) false stPair).boids.length) ∧
    (∀ i, i < stPair.trails.length → i < stPair.boids.length) :=
  ⟨c10_trails_paired.1 spawnQ 3,
   c10_trails_paired.2.1 spawnQ stPair 5 rfl,
   c10_trails_paired.2.2.1 sqVals boidParamsQ false (0, 0) false stPair rfl,
   c10_trails_paired.2.2.2 stPair rfl⟩

/-- countKind as a countP, for the counting lemmas. -/
theorem countKind_eq_countP (k : FType) (l : List (Fish K)) :
    countKind k l = l.countP (fun f => decide (f.ftype = k)) :=
  (List.countP_eq_length_filter _ _).symm

/-- Appending splits the per-kind count. -/
theorem countKind_append (k : FType) (l m : List (Fish K)) :
    countKind k (l ++ m) = countKind k l + countKind k m := by
  simp [countKind_eq_countP, List.countP_append]

/-- A list spawned entirely at kind k counts only toward kind k. -/
theorem countKind_map_spawn (k k' : FType) (mk : Nat → Fish K)
    (hmk : ∀ j, (mk j).ftype = k) :
    ∀ js : List Nat, countKind k' (js.map mk) = if k' = k then js.length else 0 := by
  intro js
  induction js with
  | nil => simp [countKind]
  | cons j t ih =>
    simp only [List.map_cons, countKind_eq_countP, List.countP_cons] at ih ⊢
    by_cases hkk : k' = k
    · simp [hmk, hkk, ih]
    · have hne : k ≠ k' := fun h => hkk h.symm
      simp [hmk, hne, if_neg hkk, ih]

/-- Erasing an element of kind k decrements the kind-k count by one. -/
theorem countKind_erase_self (k : FType) (l : List (Fish K)) (f : Fish K)
    (hf : f ∈ l) (hk : f.ftype = k) :
    countKind k (l.erase f) + 1 = countKind k l := by
  induction l with
  | nil => cases hf
  | cons h t ih =>
    by_cases hh : h = f
    · subst hh
      rw [List.erase_cons_head]
      simp [countKind_eq_countP, List.countP_cons, hk]
    · have hf2 : f ∈ t := by
        cases hf with
        | head => exact absurd rfl hh
        | tail _ h2 => exact h2
      rw [List.erase_cons_tail (by simp [hh])]
      have ih2 := ih hf2
      simp only [countKind_eq_countP, List.countP_cons] at *
      omega
      
/-- Erasing an element whose kind is not k' leaves the kind-k' count alone. -/
theorem countKind_erase_other (k' : FType) (l : List (Fish K)) (f : Fish K)
    (hk : f.ftype ≠ k') :
    countKind k' (l.erase f) = countKind k' l := by
  induction l with
  | nil => rfl
  | cons h t ih =>
    by_cases hh : h = f
    · subst hh
      rw [List.erase_cons_head]
      simp [countKind_eq_countP, List.countP_cons, hk]
    · rw [List.erase_cons_tail (by simp [hh])]
      simp only [countKind_eq_countP, List.countP_cons] at *
      omega

/-- Popping the last fish of kind k (when one exists) decrements that kind's
count by one. -/
theorem removeLastOfKind_count_pos (k : FType) (fish : List (Fish K))
    (h : 0 < countKind k fish) :
    countKind k (removeLastOfKind k fish) + 1 = countKind k fish := by
  unfold removeLastOfKind
  have hne : fish.filter (fun f => decide (f.ftype = k)) ≠ [] := by
    intro h0
    rw [countKind, h0] at h
    exact absurd h (by simp)
  rw [List.getLast?_eq_getLast_of_ne_nil hne]
  have hmemf := List.getLast_mem hne
  have hmem := (List.mem_filter.mp hmemf).1
  have hty : ((fish.filter (fun f => decide (f.ftype = k))).getLast hne).ftype = k := by
    have := (List.mem_filter.mp hmemf).2
    simpa using this
  exact countKind_erase_self k fish _ hmem hty

/-- Popping the last fish of kind k never changes another kind's count. -/
theorem removeLastOfKind_count_other (k k' : FType) (hkk : k ≠ k')
    (fish : List (Fish K)) :
    countKind k' (removeLastOfKind k fish) = countKind k' fish := by
  unfold removeLastOfKind
  cases hg : (fish.filter (fun f => decide (f.ftype = k))).getLast? with
  | none => rfl
  | some f =>
    obtain ⟨hne2, heq⟩ := List.mem_getLast?_eq_getLast
      (show f ∈ (fish.filter (fun f => decide (f.ftype = k))).getLast? by simp [hg])
    have hf : f ∈ fish.filter (fun f => decide (f.ftype = k)) :=
      heq ▸ List.getLast_mem hne2
    have hty : f.ftype = k := by
      have := (List.mem_filter.mp hf).2
      simpa using this
    exact countKind_erase_other k' fish f (hty ▸ hkk)

/-- Running the shrink loop n times (with at least n fish of the kind
present) removes exactly n of that kind and nothing else. -/
theorem shrinkKind_count (k : FType) :
    ∀ (n : Nat) (fish : List (Fish K)), n ≤ countKind k fish →
      countKind k (shrinkKind k n fish) = countKind k fish - n ∧
      (∀ k', k ≠ k' → countKind k' (shrinkKind k n fish) = countKind k' fish) := by
  intro n
  induction n with
  | zero => intro fish _; exact ⟨by simp [shrinkKind], fun k' _ => rfl⟩
  | succ n ih =>
    intro fish h
    have hpos : 0 < countKind k fish := lt_of_lt_of_le (Nat.succ_pos n) h
    have h1 := removeLastOfKind_count_pos k fish hpos
    have hle : n ≤ countKind k (removeLastOfKind k fish) := by omega
    obtain ⟨ha, hb⟩ := ih (removeLastOfKind k fish) hle
    refine ⟨?_, ?_⟩
    · show countKind k (shrinkKind k n (removeLastOfKind k fish)) = _
      rw [ha]
      omega
    · intro k' hkk
      show countKind k' (shrinkKind k n (removeLastOfKind k fish)) = _
      rw [hb k' hkk, removeLastOfKind_count_other k k' hkk]

/-- The per-kind population block leaves exactly the target number of that
kind and does not disturb the other kinds. -/
theorem adjustKind_counts (k : FType) (t : Nat) (mk : Nat → Fish K)
    (hmk : ∀ j, (mk j).ftype = k) (fish : List (Fish K)) :
    countKind k (adjustKind k t mk fish) = t ∧
    (∀ k', k ≠ k' → countKind k' (adjustKind k t mk fish) = countKind k' fish) := by
  simp only [adjustKind]
  set grown := fish ++ (List.range (t - countKind k fish)).map mk with hgrown
  have hg : countKind k grown = countKind k fish + (t - countKind k fish) := by
    rw [hgrown, countKind_append, countKind_map_spawn k k mk hmk (List.range (t - countKind k fish)),
      if_pos rfl, List.length_range]
  have hg2 : ∀ k', k ≠ k' → countKind k' grown = countKind k' fish := by
    intro k' hkk
    rw [hgrown, countKind_append, countKind_map_spawn k k' mk hmk (List.range (t - countKind k fish)),
      if_neg (fun h => hkk h.symm), add_zero]
  obtain ⟨ha, hb⟩ := shrinkKind_count k (countKind k grown - t) grown (Nat.sub_le _ _)
  refine ⟨?_, ?_⟩
  · rw [ha, hg]
    omega
  · intro k' hkk
    rw [hb k' hkk, hg2 k' hkk]

/-- Claim C7 (corrected): for the boids, setting the target to t yields a
count of exactly t when t is nonnegative, requesting the current count is a
no-op, and a negative t yields max(current + t, 0) — not the clamp to 0 the
claim states; for the aquarium, a nonnegative per-kind target always reads
back exactly, for each of the three fish kinds and for the sharks. -/
theorem c7_set_count_reads_back :
    (∀ (spawn : Nat → Boid K) (st : BoidsState K) (t : Int),
       ((adjustBoidCount spawn st t).boids.length : Int) =
         if 0 ≤ t then t else max ((st.boids.length : Int) + t) 0) ∧
    (∀ (spawn : Nat → Boid K) (st : BoidsState K),
       adjustBoidCount spawn st (st.boids.length : Int) = st) ∧
    (∀ (mkS mkM mkL : Nat → Fish K) (sT mT lT : Nat) (fish : List (Fish K)),
       (∀ j, (mkS j).ftype = FType.small) → (∀ j, (mkM j).ftype = FType.medium) →
       (∀ j, (mkL j).ftype = FType.large) →
       countKind FType.small (adjustFishPopulation mkS mkM mkL sT mT lT fish) = sT ∧
       countKind FType.medium (adjustFishPopulation mkS mkM mkL sT mT lT fish) = mT ∧
       countKind FType.large (adjustFishPopulation mkS mkM mkL sT mT lT fish) = lT) ∧
    (∀ (t : Nat) (mk : Nat → Fish K) (sharks : List (Fish K)),
       (adjustSharkPopulation t mk sharks).length = t) := by
  refine ⟨?_, ?_, ?_, ?_⟩
  · intro spawn st t
    simp only [adjustBoidCount, jsSlice0, jsSliceEnd]
    split_ifs <;>
      (try simp only [List.length_take, List.length_append, List.length_map, List.length_range]) <;>
      (try push_cast) <;> omega
  · intro spawn st
    simp [adjustBoidCount]
  · intro mkS mkM mkL sT mT lT fish hS hM hL
    have h1 := adjustKind_counts FType.small sT mkS hS fish
    have h2 := adjustKind_counts FType.medium mT mkM hM (adjustKind FType.small sT mkS fish)
    have h3 := adjustKind_counts FType.large lT mkL hL
      (adjustKind FType.medium mT mkM (adjustKind FType.small sT mkS fish))
    refine ⟨?_, ?_, ?_⟩
    · simp only [adjustFishPopulation]
      rw [h3.2 FType.small (by decide), h2.2 FType.small (by decide), h1.1]
    · simp only [adjustFishPopulation]
      rw [h3.2 FType.medium (by decide), h2.1]
    · simp only [adjustFishPopulation]
      exact h3.1
  · intro t mk sharks
    simp only [adjustSharkPopulation]
    simp only [List.length_take, List.length_append, List.length_map, List.length_range]
    omega

/-- The C7 theorem applied at concrete inputs: target 1 on the 2-boid state,
the idempotent request, per-kind targets 2/1/1 on the empty aquarium with
concrete spawners, and a shark target of 2. -/
theorem c7_set_count_reads_back_witness :
    ((adjustBoidCount spawnQ stPair 1).boids.length : Int) =
      (if (0 : Int) ≤ 1 then (1 : Int) else max ((stPair.boids.length : Int) + 1) 0) ∧
    adjustBoidCount spawnQ stPair (stPair.boids.length : Int) = stPair ∧
    countKind FType.small
      (adjustFishPopulation mkSmallQ (fun j => { fishA with id := 200 + j, ftype := FType.medium })
        (fun j => { fishA with id := 300 + j, ftype := FType.large }) 2 1 1 []) = 2 ∧
    (adjustSharkPopulation 2 (fun j => { sharkCool with id := 400 + j }) []).length = 2 :=
  ⟨c7_set_count_reads_back.1 spawnQ stPair 1,
   c7_set_count_reads_back.2.1 spawnQ stPair,
   (c7_set_count_reads_back.2.2.1 mkSmallQ
      (fun j => { fishA with id := 200 + j, ftype := FType.medium })
      (fun j => { fishA with id := 300 + j, ftype := FType.large }) 2 1 1 []
      (fun _ => rfl) (fun _ => rfl) (fun _ => rfl)).1,
   c7_set_count_reads_back.2.2.2 2 (fun j => { sharkCool with id := 400 + j }) []⟩

/-- Claim C1 (counterexample): a scare click 5 pixels away from a resting
small fish (type speed 3/2, so with the default swimmingSpeed 6/5 the kind's
speed cap is 9/5) leaves the fish with squared speed 25 — the escape impulse
is added to the velocity with no clamp, so right after the interaction the
speed bound fails; the sqVals entry used (sqrt 25 = 5) is verified in the
last conjunct. -/
theorem c1_counterexample :
    (scareFishStep sqVals 303 304 fishA).map Fish.speedSq = some 25 ∧
    fishA.speed = (fishTypes FType.small).speed ∧
    (fishTypes FType.small).speed * (6 / 5) = (9 : ℚ) / 5 ∧
    ¬((25 : ℚ) ≤ (9 / 5) * (9 / 5)) ∧
    sqVals 25 * sqVals 25 = 25 := by
  refine ⟨?_, rfl, by norm_num [fishTypes], by norm_num, by norm_num [sqVals]⟩
  norm_num [scareFishStep, sqVals, fishA, Fish.speedSq]

/-- Claim C4 (corrected): in one tick the catch check removes every fish
strictly inside the shark's capture distance — the survivors are exactly the
filter of the out-of-range fish and the counter increments by the number of
fish in range, not by one — the check ignores the shark's cooldown entirely,
and any successful catch resets the cooldown to 180 ticks. -/
theorem c4_catch_batch :
    (∀ (sq : K → K) (shark : Fish K) (fish : List (Fish K)),
       (checkSharkCatches sq shark fish).1 =
         fish.filter (fun f =>
           !(decide (sq ((shark.x - f.x) * (shark.x - f.x) + (shark.y - f.y) * (shark.y - f.y))
              < shark.size))) ∧
       (checkSharkCatches sq shark fish).2 =
         (fish.filter (fun f =>
           decide (sq ((shark.x - f.x) * (shark.x - f.x) + (shark.y - f.y) * (shark.y - f.y))
             < shark.size))).length) ∧
    (∀ (sq : K → K) (shark : Fish K) (fish : List (Fish K)) (c : Nat),
       checkSharkCatches sq { shark with huntCooldown := c } fish =
         checkSharkCatches sq shark fish) ∧
    (∀ (ctx : AqCtx K) (p : AqParams K) (fish : List (Fish K)) (i : Nat) (shark : Fish K),
       0 < (sharkStep ctx p fish i shark).2.2 →
       (sharkStep ctx p fish i shark).1.huntCooldown = 180) := by
  refine ⟨?_, ?_, ?_⟩
  · intro sq shark fish
    induction fish with
    | nil => exact ⟨rfl, rfl⟩
    | cons f t ih =>
      have hunf : checkSharkCatches sq shark (f :: t) =
          (if sq ((shark.x - f.x) * (shark.x - f.x) + (shark.y - f.y) * (shark.y - f.y))
              < shark.size
           then ((checkSharkCatches sq shark t).1, (checkSharkCatches sq shark t).2 + 1)
           else (f :: (checkSharkCatches sq shark t).1, (checkSharkCatches sq shark t).2)) := rfl
      rw [hunf]
      by_cases h : sq ((shark.x - f.x) * (shark.x - f.x) + (shark.y - f.y) * (shark.y - f.y))
          < shark.size
      · simp [h, List.filter_cons, ih.1, ih.2]
      · simp [h, List.filter_cons, ih.1, ih.2]
  · intro sq shark fish c
    rfl
  · intro ctx p fish i shark h
    dsimp only [sharkStep] at h ⊢
    rw [if_pos h]

/-- The C4 theorem applied at the concrete state: the shark in mid-cooldown
next to two fish catches at least one, so its cooldown is reset to 180. -/
theorem c4_catch_batch_witness :
    0 < (sharkStep aqCtxQ aqParamsQ [fishC, fishD] 0 sharkCool).2.2 ∧
    (sharkStep aqCtxQ aqParamsQ [fishC, fishD] 0 sharkCool).1.huntCooldown = 180 := by
  have hpos : 0 < (sharkStep aqCtxQ aqParamsQ [fishC, fishD] 0 sharkCool).2.2 := by
    norm_num [sharkStep, checkSharkCatches, aqCtxQ, aqParamsQ, sqVals, fishC, fishD,
      sharkCool, calculateBoundaryForce, calculateHuntingForce]
  exact ⟨hpos, c4_catch_batch.2.2 aqCtxQ aqParamsQ [fishC, fishD] 0 sharkCool hpos⟩

/-- Claim C4 (counterexample): one updateSharks tick of a shark whose
huntCooldown is still 100 removes BOTH fish inside its 40-pixel capture
distance and increments the catch counter by 2, not 1 — the capture check is
not gated by the cooldown and is not limited to one prey (the sqVals entries
used are verified in the last conjuncts). -/
theorem c4_counterexample :
    (updateSharks aqCtxQ aqParamsQ [sharkCool] [fishC, fishD] 0).2.1 = [] ∧
    (updateSharks aqCtxQ aqParamsQ [sharkCool] [fishC, fishD] 0).2.2 = 2 ∧
    (2 : Nat) ≠ 1 ∧
    sharkCool.huntCooldown = 100 ∧
    sqVals 100 * sqVals 100 = 100 ∧ sqVals 400 * sqVals 400 = 400 ∧ sqVals 0 = 0 := by
  refine ⟨?_, ?_, by norm_num, rfl, by norm_num [sqVals], by norm_num [sqVals],
    by norm_num [sqVals]⟩ <;>
  · norm_num [updateSharks, sharkStep, checkSharkCatches, aqCtxQ, aqParamsQ, sqVals,
      fishC, fishD, sharkCool, calculateBoundaryForce, calculateHuntingForce,
      List.range_succ]

/-- Claim C3 (code_bug evidence): a single stationary boid at (300, 400) —
no neighbors, mouse up, more than the 50-pixel margin from every edge of the
800 x 600 canvas — does NOT keep a constant velocity: getCenterOfMass of the
empty neighbor set returns the sentinel (0,0), seek treats that sentinel as a
real target, and after one tick the boid has picked up velocity
(-9/500, -3/125) toward the canvas origin.  The last conjuncts verify the
sqVals entries used (sqrt 250000 = 500, sqrt 4 = 2, sqrt 0.0009 = 0.03). -/
theorem c3_empty_neighbors_spurious_force :
    (updateBoids sqVals boidParamsQ false (0, 0) false stLone).boids.map
        (fun b => (b.vx, b.vy)) = [(-(9 / 500), -(3 / 125))] ∧
    ((-(9 / 500), -(3 / 125)) : ℚ × ℚ) ≠ (0, 0) ∧
    getNeighbors sqVals boidParamsQ [boidLone] boidLone 0 = [] ∧
    getCenterOfMass ([] : List (Boid ℚ)) = (0, 0) ∧
    sqVals 250000 * sqVals 250000 = 250000 ∧ sqVals 4 * sqVals 4 = 4 ∧
    sqVals (9 / 10000) * sqVals (9 / 10000) = 9 / 10000 := by
  refine ⟨?_, by norm_num, ?_, by norm_num [getCenterOfMass], by norm_num [sqVals],
    by norm_num [sqVals], by norm_num [sqVals]⟩
  · norm_num [updateBoids, forcePhase, movePhase, forceStep, moveStep, stLone,
      computeForces, getNeighbors, separate, align, seek, getCenterOfMass,
      boundaryForce, integrate, updateTrail, Boid.setAcc, boidLone, boidParamsQ,
      sqVals, List.range_succ]
  · norm_num [getNeighbors, boidLone, boidParamsQ, sqVals]

set_option maxHeartbeats 2000000 in
/-- The two-fish school evaluated both ways: the in-place tick moves fishA
first, so fishB's schooling force reads fishA's already-updated position and
velocity and fishB ends at x = 310.18031; the snapshot tick leaves fishB at
x = 310.19. -/
theorem fish_tick_reads_updated_neighbor :
    (updateFishInPlace aqCtxQ aqParamsQ [] [] (0, 0) 0 [fishA, fishB]).map Fish.x =
      [29981 / 100, 31018031 / 100000] ∧
    (updateFishSnapshot aqCtxQ aqParamsQ [] [] (0, 0) 0 [fishA, fishB]).map Fish.x =
      [29981 / 100, 31019 / 100] := by
  constructor
  · norm_num [updateFishInPlace, fishStep, calculateSchoolingForce, calculateFearForce,
      calculateFoodAttraction, calculateBoundaryForce, aqCtxQ, aqParamsQ, sqVals,
      fishA, fishB, fishTypes, List.range_succ]
  · norm_num [updateFishSnapshot, fishStep, calculateSchoolingForce, calculateFearForce,
      calculateFoodAttraction, calculateBoundaryForce, aqCtxQ, aqParamsQ, sqVals,
      fishA, fishB, fishTypes, List.range_succ]

/-- Claim C2 (counterexample): the concrete two-fish school on which the
aquarium's in-place tick differs from the double-buffered tick, because the
second fish's schooling force reads the first fish's already-updated state;
the sqVals entries used by both runs are verified in the later conjuncts. -/
theorem c2_counterexample :
    updateFishInPlace aqCtxQ aqParamsQ [] [] (0, 0) 0 [fishA, fishB] ≠
      updateFishSnapshot aqCtxQ aqParamsQ [] [] (0, 0) 0 [fishA, fishB] ∧
    sqVals 100 * sqVals 100 = 100 ∧
    sqVals (1038361 / 10000) * sqVals (1038361 / 10000) = 1038361 / 10000 ∧
    sqVals (361 / 10000) * sqVals (361 / 10000) = 361 / 10000 ∧
    sqVals (325116961 / 10000000000) * sqVals (325116961 / 10000000000) =
      325116961 / 10000000000 := by
  refine ⟨?_, by norm_num [sqVals], by norm_num [sqVals], by norm_num [sqVals],
    by norm_num [sqVals]⟩
  intro h
  have h1 := fish_tick_reads_updated_neighbor.1
  rw [h, fish_tick_reads_updated_neighbor.2] at h1
  simp only [List.cons.injEq] at h1
  exact absurd h1.2.1 (by norm_num)

/-- Stripping the acceleration accumulator identifies boids exactly when all
four kinematic fields agree. -/
theorem strip_eq_iff {b₁ b₂ : Boid K} :
    Boid.strip b₁ = Boid.strip b₂ ↔
      b₁.x = b₂.x ∧ b₁.y = b₂.y ∧ b₁.vx = b₂.vx ∧ b₁.vy = b₂.vy := by
  simp [Boid.strip, Boid.mk.injEq]

/-- The distance read by the neighbor search only depends on positions. -/
theorem bdist_congr (sq : K → K) {b₁ b₂ n₁ n₂ : Boid K}
    (hb : Boid.strip b₁ = Boid.strip b₂) (hn : Boid.strip n₁ = Boid.strip n₂) :
    bdist sq b₁ n₁ = bdist sq b₂ n₂ := by
  rw [strip_eq_iff] at hb hn
  simp [bdist, hb.1, hb.2.1, hn.1, hn.2.1]

/-- separate only reads the kinematic fields of the boid and its neighbors. -/
theorem separate_congr (sq : K → K) (p : BoidParams K) {b₁ b₂ : Boid K}
    (hb : Boid.strip b₁ = Boid.strip b₂) :
    ∀ {ns₁ ns₂ : List (Boid K)}, ns₁.map Boid.strip = ns₂.map Boid.strip →
      separate sq p b₁ ns₁ = separate sq p b₂ ns₂ := by
  have hfold : ∀ (ns₁ ns₂ : List (Boid K)), ns₁.map Boid.strip = ns₂.map Boid.strip →
      ∀ st : (K × K) × Nat,
      ns₁.foldl (fun (st : (K × K) × Nat) n =>
        let d := bdist sq b₁ n
        if d < p.separationRadius ∧ 0 < d then
          let dx := b₁.x - n.x
          let dy := b₁.y - n.y
          let mag := sq (dx * dx + dy * dy)
          let dx2 := if 0 < mag then dx / (mag * mag) else dx
          let dy2 := if 0 < mag then dy / (mag * mag) else dy
          ((st.1.1 + dx2, st.1.2 + dy2), st.2 + 1)
        else st) st =
      ns₂.foldl (fun (st : (K × K) × Nat) n =>
        let d := bdist sq b₂ n
        if d < p.separationRadius ∧ 0 < d then
          let dx := b₂.x - n.x
          let dy := b₂.y - n.y
          let mag := sq (dx * dx + dy * dy)
          let dx2 := if 0 < mag then dx / (mag * mag) else dx
          let dy2 := if 0 < mag then dy / (mag * mag) else dy
          ((st.1.1 + dx2, st.1.2 + dy2), st.2 + 1)
        else st) st := by
    intro ns₁
    induction ns₁ with
    | nil =>
      intro ns₂ h st
      cases ns₂ with
      | nil => rfl
      | cons n t => exact absurd h (by simp)
    | cons n t ih =>
      intro ns₂ h st
      cases ns₂ with
      | nil => exact absurd h (by simp)
      | cons n' t' =>
        simp only [List.map_cons, List.cons.injEq] at h
        have hn := h.1
        have hd : bdist sq b₁ n = bdist sq b₂ n' := bdist_congr sq hb h.1
        rw [strip_eq_iff] at hn
        have hbb := strip_eq_iff.mp hb
        simp only [List.foldl_cons]
        rw [show (let d := bdist sq b₁ n
          if d < p.separationRadius ∧ 0 < d then
            let dx := b₁.x - n.x
            let dy := b₁.y - n.y
            let mag := sq (dx * dx + dy * dy)
            let dx2 := if 0 < mag then dx / (mag * mag) else dx
            let dy2 := if 0 < mag then dy / (mag * mag) else dy
            ((st.1.1 + dx2, st.1.2 + dy2), st.2 + 1)
          else st) =
          (let d := bdist sq b₂ n'
          if d < p.separationRadius ∧ 0 < d then
            let dx := b₂.x - n'.x
            let dy := b₂.y - n'.y
            let mag := sq (dx * dx + dy * dy)
            let dx2 := if 0 < mag then dx / (mag * mag) else dx
            let dy2 := if 0 < mag then dy / (mag * mag) else dy
            ((st.1.1 + dx2, st.1.2 + dy2), st.2 + 1)
          else st) by
          simp only [hd, hbb.1, hbb.2.1, hn.1, hn.2.1]]
        exact ih t' h.2 _
  intro ns₁ ns₂ h
  unfold separate
  rw [hfold ns₁ ns₂ h ((0, 0), 0)]
  rw [strip_eq_iff] at hb
  simp only [hb.2.2.1, hb.2.2.2]

/-- align only reads the kinematic fields of the boid and its neighbors. -/
theorem align_congr (sq : K → K) (p : BoidParams K) {b₁ b₂ : Boid K}
    (hb : Boid.strip b₁ = Boid.strip b₂) :
    ∀ {ns₁ ns₂ : List (Boid K)}, ns₁.map Boid.strip = ns₂.map Boid.strip →
      align sq p b₁ ns₁ = align sq p b₂ ns₂ := by
  have hfold : ∀ (ns₁ ns₂ : List (Boid K)), ns₁.map Boid.strip = ns₂.map Boid.strip →
      ∀ st : K × K,
      ns₁.foldl (fun (st : K × K) n => (st.1 + n.vx, st.2 + n.vy)) st =
      ns₂.foldl (fun (st : K × K) n => (st.1 + n.vx, st.2 + n.vy)) st := by
    intro ns₁
    induction ns₁ with
    | nil =>
      intro ns₂ h st
      cases ns₂ with
      | nil => rfl
      | cons n t => exact absurd h (by simp)
    | cons n t ih =>
      intro ns₂ h st
      cases ns₂ with
      | nil => exact absurd h (by simp)
      | cons n' t' =>
        simp only [List.map_cons, List.cons.injEq] at h
        have hn := strip_eq_iff.mp h.1
        simp only [List.foldl_cons, hn.2.2.1, hn.2.2.2]
        exact ih t' h.2 _
  intro ns₁ ns₂ h
  have hlen : ns₁.length = ns₂.length := by
    have := congrArg List.length h
    simpa using this
  have hbb := strip_eq_iff.mp hb
  unfold align
  rw [hfold ns₁ ns₂ h (0, 0), hlen, hbb.2.2.1, hbb.2.2.2]

/-- getCenterOfMass only reads neighbor positions. -/
theorem getCenterOfMass_congr {ns₁ ns₂ : List (Boid K)}
    (h : ns₁.map Boid.strip = ns₂.map Boid.strip) :
    getCenterOfMass ns₁ = getCenterOfMass ns₂ := by
  have hfold : ∀ (ns₁ ns₂ : List (Boid K)), ns₁.map Boid.strip = ns₂.map Boid.strip →
      ∀ st : K × K,
      ns₁.foldl (fun (st : K × K) n => (st.1 + n.x, st.2 + n.y)) st =
      ns₂.foldl (fun (st : K × K) n => (st.1 + n.x, st.2 + n.y)) st := by
    intro ns₁
    induction ns₁ with
    | nil =>
      intro ns₂ h st
      cases ns₂ with
      | nil => rfl
      | cons n t => exact absurd h (by simp)
    | cons n t ih =>
      intro ns₂ h st
      cases ns₂ with
      | nil => exact absurd h (by simp)
      | cons n' t' =>
        simp only [List.map_cons, List.cons.injEq] at h
        have hn := strip_eq_iff.mp h.1
        simp only [List.foldl_cons, hn.1, hn.2.1]
        exact ih t' h.2 _
  have hlen : ns₁.length = ns₂.length := by
    have := congrArg List.length h
    simpa using this
  unfold getCenterOfMass
  rw [hfold ns₁ ns₂ h (0, 0), hlen]

/-- seek only reads the kinematic fields of the boid. -/
theorem seek_congr (sq : K → K) (p : BoidParams K) {b₁ b₂ : Boid K}
    (hb : Boid.strip b₁ = Boid.strip b₂) (t : K × K) :
    seek sq p b₁ t = seek sq p b₂ t := by
  have hbb := strip_eq_iff.mp hb
  simp only [seek, hbb.1, hbb.2.1, hbb.2.2.1, hbb.2.2.2]

/-- boundaryForce only reads the position. -/
theorem boundaryForce_congr (p : BoidParams K) {b₁ b₂ : Boid K}
    (hb : Boid.strip b₁ = Boid.strip b₂) :
    boundaryForce p b₁ = boundaryForce p b₂ := by
  have hbb := strip_eq_iff.mp hb
  simp only [boundaryForce, hbb.1, hbb.2.1]

/-- The neighbor query returns kinematically identical lists on kinematically
identical populations. -/
theorem getNeighbors_congr (sq : K → K) (p : BoidParams K) {b₁ b₂ : Boid K}
    (hb : Boid.strip b₁ = Boid.strip b₂) (i : Nat) :
    ∀ {l₁ l₂ : List (Boid K)}, l₁.map Boid.strip = l₂.map Boid.strip →
      (getNeighbors sq p l₁ b₁ i).map Boid.strip = (getNeighbors sq p l₂ b₂ i).map Boid.strip := by
  have haux : ∀ (m : Nat) (l₁ l₂ : List (Boid K)),
      l₁.map Boid.strip = l₂.map Boid.strip →
      ((l₁.enumFrom m).filter
        (fun q => decide (q.1 ≠ i) && decide (bdist sq b₁ q.2 < p.neighborRadius))).map
          (fun q => Boid.strip q.2) =
      ((l₂.enumFrom m).filter
        (fun q => decide (q.1 ≠ i) && decide (bdist sq b₂ q.2 < p.neighborRadius))).map
          (fun q => Boid.strip q.2) := by
    intro m l₁
    induction l₁ generalizing m with
    | nil =>
      intro l₂ h
      cases l₂ with
      | nil => rfl
      | cons n t => exact absurd h (by simp)
    | cons n t ih =>
      intro l₂ h
      cases l₂ with
      | nil => exact absurd h (by simp)
      | cons n' t' =>
        simp only [List.map_cons, List.cons.injEq] at h
        have hd : bdist sq b₁ n = bdist sq b₂ n' := bdist_congr sq hb h.1
        simp only [List.enumFrom_cons, List.filter_cons, hd]
        by_cases hc : (decide (m ≠ i) && decide (bdist sq b₂ n' < p.neighborRadius)) = true
        · rw [if_pos hc, if_pos hc]
          simp only [List.map_cons, h.1]
          rw [ih (m + 1) t' h.2]
        · rw [if_neg hc, if_neg hc]
          exact ih (m + 1) t' h.2
  intro l₁ l₂ h
  unfold getNeighbors
  rw [List.map_map, List.map_map]
  exact haux 0 l₁ l₂ h

/-- The whole per-boid force block reads only kinematic data: it is invariant
under replacing the population and the boid by any acceleration-stripped
equals. -/
theorem computeForces_congr (sq : K → K) (p : BoidParams K) (md : Bool) (m : K × K)
    {l₁ l₂ : List (Boid K)} (hl : l₁.map Boid.strip = l₂.map Boid.strip)
    {b₁ b₂ : Boid K} (hb : Boid.strip b₁ = Boid.strip b₂) (i : Nat) :
    computeForces sq p md m l₁ b₁ i = computeForces sq p md m l₂ b₂ i := by
  have hns := getNeighbors_congr sq p hb i hl
  have hsep := separate_congr sq p hb hns
  have hali := align_congr sq p hb hns
  have hcom := getCenterOfMass_congr hns
  have hbb := strip_eq_iff.mp hb
  simp only [computeForces, hsep, hali, hcom, seek_congr sq p hb,
    boundaryForce_congr p hb]

/-- The in-place force loop of updateBoids computes, at every index, exactly
the force the double-buffered loop computes from the start-of-tick array:
writing accelerations never perturbs the kinematic data later force
computations read. -/
theorem forcePhase_eq_snapshot (sq : K → K) (p : BoidParams K) (md : Bool)
    (m : K × K) (l : List (Boid K)) :
    forcePhase sq p md m l = forcePhaseSnapshot sq p md m l := by
  have key : ∀ k : Nat, k ≤ l.length →
      ((List.range k).foldl (forceStep sq p md m) l).length = l.length ∧
      (∀ j : Nat, ((List.range k).foldl (forceStep sq p md m) l)[j]?.map (fun b : Boid K => Boid.strip b) =
        l[j]?.map (fun b : Boid K => Boid.strip b)) ∧
      (∀ j, j < k → ((List.range k).foldl (forceStep sq p md m) l)[j]? =
        l[j]?.map (fun b => Boid.setAcc b (computeForces sq p md m l b j))) ∧
      (∀ j, k ≤ j → ((List.range k).foldl (forceStep sq p md m) l)[j]? = l[j]?) := by
    intro k
    induction k with
    | zero =>
      intro _
      exact ⟨rfl, fun j => rfl, fun j h => absurd h (Nat.not_lt_zero j), fun j _ => rfl⟩
    | succ k ih =>
      intro hk1
      have hk : k ≤ l.length := Nat.le_of_succ_le hk1
      obtain ⟨hlen, hstrip, hdone, hrest⟩ := ih hk
      set r := (List.range k).foldl (forceStep sq p md m) l with hr
      have hfold : (List.range (k + 1)).foldl (forceStep sq p md m) l =
          forceStep sq p md m r k := by
        rw [List.range_succ, List.foldl_append]
        rfl
      have hklt : k < l.length := hk1
      obtain ⟨b, hb⟩ : ∃ b, l[k]? = some b := ⟨l[k], List.getElem?_eq_getElem hklt⟩
      have hrk : r[k]? = some b := (hrest k le_rfl).trans hb
      have hstep : forceStep sq p md m r k =
          r.set k (Boid.setAcc b (computeForces sq p md m r b k)) := by
        unfold forceStep
        rw [hrk]
      have hmapeq : r.map Boid.strip = l.map Boid.strip := by
        apply List.ext_getElem?
        intro j
        rw [List.getElem?_map, List.getElem?_map]
        exact hstrip j
      have hcf : computeForces sq p md m r b k = computeForces sq p md m l b k :=
        computeForces_congr sq p md m hmapeq rfl k
      rw [hfold, hstep, hcf]
      have hklt2 : k < r.length := by rw [hlen]; exact hklt
      refine ⟨?_, ?_, ?_, ?_⟩
      · rw [List.length_set, hlen]
      · intro j
        by_cases hj : j = k
        · subst hj
          rw [List.getElem?_set_eq_of_lt _ hklt2, hb]
          simp [Boid.setAcc, Boid.strip]
        · rw [List.getElem?_set_ne (fun h => hj h.symm)]
          exact hstrip j
      · intro j hj1
        by_cases hj : j = k
        · subst hj
          rw [List.getElem?_set_eq_of_lt _ hklt2, hb]
          rfl
        · have hjk : j < k := lt_of_le_of_ne (Nat.lt_succ_iff.mp hj1) hj
          rw [List.getElem?_set_ne (fun h => hj h.symm)]
          exact hdone j hjk
      · intro j hj
        rw [List.getElem?_set_ne (by omega)]
        exact hrest j (by omega)
  obtain ⟨hlen, hstrip, hdone, hrest⟩ := key l.length le_rfl
  apply List.ext_getElem?
  intro j
  show ((List.range l.length).foldl (forceStep sq p md m) l)[j]? =
    (forcePhaseSnapshot sq p md m l)[j]?
  unfold forcePhaseSnapshot
  by_cases hj : j < l.length
  · rw [hdone j hj, List.getElem?_map, List.getElem?_enum]
    cases hlj : l[j]? with
    | none => rfl
    | some b => rfl
  · have h1 : l[j]? = none := List.getElem?_eq_none (le_of_not_lt hj)
    rw [hrest j (le_of_not_lt hj), h1, List.getElem?_map, List.getElem?_enum, h1]
    rfl

/-- Claim C2 (corrected): the boids tick is snapshot-equivalent — it equals
the double-buffered tick that computes every force from the start-of-tick
array before moving any agent — but the aquarium fish tick is not: it
updates fish in place, and on the concrete two-fish school it differs from
the double-buffered tick because the second fish observes the first fish's
already-updated position and velocity. -/
theorem c2_force_snapshot :
    (∀ (sq : K → K) (p : BoidParams K) (md : Bool) (m : K × K) (paused : Bool)
       (st : BoidsState K),
       updateBoids sq p md m paused st = updateBoidsSnapshot sq p md m paused st) ∧
    updateFishInPlace aqCtxQ aqParamsQ [] [] (0, 0) 0 [fishA, fishB] ≠
      updateFishSnapshot aqCtxQ aqParamsQ [] [] (0, 0) 0 [fishA, fishB] := by
  constructor
  · intro sq p md m paused st
    unfold updateBoids updateBoidsSnapshot
    cases paused with
    | true => rfl
    | false =>
      simp only [Bool.false_eq_true, if_false]
      rw [forcePhase_eq_snapshot]
  · intro h
    have h1 := fish_tick_reads_updated_neighbor.1
    rw [h, fish_tick_reads_updated_neighbor.2] at h1
    simp only [List.cons.injEq] at h1
    exact absurd h1.2.1 (by norm_num)

/-- The shared speed-limit block: after the conditional rescale by
maxSpeed / speed, the squared speed is at most maxSpeed squared. -/
theorem clamp_speedSq_le (sq : K → K) (hsq : SqrtOK sq) (vx vy M : K) (hM : 0 ≤ M) :
    (if sq (vx * vx + vy * vy) > M then vx / sq (vx * vx + vy * vy) * M else vx) *
      (if sq (vx * vx + vy * vy) > M then vx / sq (vx * vx + vy * vy) * M else vx) +
    (if sq (vx * vx + vy * vy) > M then vy / sq (vx * vx + vy * vy) * M else vy) *
      (if sq (vx * vx + vy * vy) > M then vy / sq (vx * vx + vy * vy) * M else vy) ≤
      M * M := by
  have hs0 : 0 ≤ vx * vx + vy * vy :=
    add_nonneg (mul_self_nonneg vx) (mul_self_nonneg vy)
  obtain ⟨hmul, hnn⟩ := hsq (vx * vx + vy * vy) hs0
  by_cases h : sq (vx * vx + vy * vy) > M
  · simp only [if_pos h]
    have hd : 0 < sq (vx * vx + vy * vy) := lt_of_le_of_lt hM h
    have hne : sq (vx * vx + vy * vy) ≠ 0 := ne_of_gt hd
    have hfs : vx / sq (vx * vx + vy * vy) * M * (vx / sq (vx * vx + vy * vy) * M) +
        vy / sq (vx * vx + vy * vy) * M * (vy / sq (vx * vx + vy * vy) * M) =
        (vx * vx + vy * vy) * (M * M) / (sq (vx * vx + vy * vy) * sq (vx * vx + vy * vy)) := by
      field_simp
      ring
    rw [hfs, hmul]
    have hspos : (0 : K) < vx * vx + vy * vy := by
      rw [← hmul]
      exact mul_pos hd hd
    rw [mul_comm (vx * vx + vy * vy) (M * M), mul_div_assoc,
      div_self (ne_of_gt hspos), mul_one]
  · simp only [if_neg h]
    push_neg at h
    calc vx * vx + vy * vy = sq (vx * vx + vy * vy) * sq (vx * vx + vy * vy) := hmul.symm
      _ ≤ M * M := mul_le_mul h h hnn hM

/-- One integration step leaves a boid at or below the speed cap. -/
theorem integrate_speedSq_le (sq : K → K) (hsq : SqrtOK sq) (p : BoidParams K)
    (hM : 0 ≤ p.maxSpeed) (b : Boid K) :
    Boid.speedSq (integrate sq p b) ≤ p.maxSpeed * p.maxSpeed := by
  have h := clamp_speedSq_le sq hsq (b.vx + b.ax) (b.vy + b.ay) p.maxSpeed hM
  unfold integrate
  dsimp only [Boid.speedSq]
  exact h

/-- One fish step leaves the fish at or below its personal speed cap and
never changes its speed attribute. -/
theorem fishStep_speedSq_le (ctx : AqCtx K) (hsq : SqrtOK ctx.sq) (p : AqParams K)
    (sharks : List (Fish K)) (foods : List (Food K)) (mouse : K × K) (time : K)
    (allFish : List (Fish K)) (f : Fish K) (hM : 0 ≤ f.speed * p.swimmingSpeed) :
    Fish.speedSq (fishStep ctx p sharks foods mouse time allFish f) ≤
      (f.speed * p.swimmingSpeed) * (f.speed * p.swimmingSpeed) ∧
    (fishStep ctx p sharks foods mouse time allFish f).speed = f.speed := by
  constructor
  · unfold fishStep
    dsimp only [Fish.speedSq]
    exact clamp_speedSq_le ctx.sq hsq _ _ _ hM
  · rfl

/-- One shark step leaves the shark at or below its personal speed cap and
never changes its speed attribute. -/
theorem sharkStep_speedSq_le (ctx : AqCtx K) (hsq : SqrtOK ctx.sq) (p : AqParams K)
    (fish : List (Fish K)) (i : Nat) (s : Fish K) (hM : 0 ≤ s.speed * p.swimmingSpeed) :
    Fish.speedSq (sharkStep ctx p fish i s).1 ≤
      (s.speed * p.swimmingSpeed) * (s.speed * p.swimmingSpeed) ∧
    (sharkStep ctx p fish i s).1.speed = s.speed := by
  constructor
  · unfold sharkStep
    dsimp only
    rw [apply_ite Fish.speedSq]
    dsimp only [Fish.speedSq]
    rw [ite_self]
    exact clamp_speedSq_le ctx.sq hsq _ _ _ hM
  · unfold sharkStep
    dsimp only
    rw [apply_ite Fish.speed]
    dsimp only
    rw [ite_self]

/-- For an in-place loop that rewrites every cell i with a function of the
current array and the old cell, every cell of the result satisfies P,
provided the rewrite preserves the side invariant I and establishes P. -/
theorem range_foldl_set_all {α : Type} (step : List α → Nat → List α)
    (g : List α → Nat → α → α) (P I : α → Prop)
    (l : List α) (hl : ∀ x ∈ l, I x)
    (hstep : ∀ (acc : List α) (i : Nat) (b : α), acc[i]? = some b →
      step acc i = acc.set i (g acc i b))
    (hPI : ∀ (acc : List α) (i : Nat) (x : α), (∀ y ∈ acc, I y) → I x →
      P (g acc i x) ∧ I (g acc i x)) :
    ∀ x ∈ (List.range l.length).foldl step l, P x := by
  have key : ∀ k : Nat, k ≤ l.length →
      (((List.range k).foldl step l).length = l.length) ∧
      (∀ y ∈ (List.range k).foldl step l, I y) ∧
      (∀ j : Nat, j < k → ∀ x, ((List.range k).foldl step l)[j]? = some x → P x) := by
    intro k
    induction k with
    | zero =>
      intro _
      exact ⟨rfl, hl, fun j h => absurd h (Nat.not_lt_zero j)⟩
    | succ k ih =>
      intro hk1
      have hk : k ≤ l.length := Nat.le_of_succ_le hk1
      obtain ⟨hlen, hI, hP⟩ := ih hk
      set r := (List.range k).foldl step l with hr
      have hfold : (List.range (k + 1)).foldl step l = step r k := by
        rw [List.range_succ, List.foldl_append]
        rfl
      have hklt : k < r.length := by rw [hlen]; exact hk1
      obtain ⟨b, hb⟩ : ∃ b, r[k]? = some b := ⟨r[k], List.getElem?_eq_getElem hklt⟩
      have hbmem : b ∈ r := by
        have := List.getElem_mem hklt
        rwa [show r[k] = b from by
          have := List.getElem?_eq_getElem hklt
          rw [hb] at this
          exact (Option.some_inj.mp this.symm)] at this
      have hgb := hPI r k b hI (hI b hbmem)
      rw [hfold, hstep r k b hb]
      refine ⟨?_, ?_, ?_⟩
      · rw [List.length_set, hlen]
      · intro y hy
        rcases List.mem_or_eq_of_mem_set hy with hy2 | hy2
        · exact hI y hy2
        · rw [hy2]
          exact hgb.2
      · intro j hj x hx
        by_cases hjk : j = k
        · subst hjk
          rw [List.getElem?_set_eq_of_lt _ hklt] at hx
          rw [← Option.some_inj.mp hx]
          exact hgb.1
        · rw [List.getElem?_set_ne (fun h => hjk h.symm)] at hx
          exact hP j (by omega) x hx
  intro x hx
  obtain ⟨hlen, hI, hP⟩ := key l.length le_rfl
  obtain ⟨i, hi, heq⟩ := List.getElem_of_mem hx
  refine hP i (by rw [← hlen]; exact hi) x ?_
  rw [List.getElem?_eq_getElem hi, heq]

/-- The boids component of the integration loop is a plain per-index rewrite
of the boids array (the trail writes never feed back into it). -/
theorem movePhase_fst (sq : K → K) (p : BoidParams K) :
    ∀ (idx : List Nat) (bs : List (Boid K)) (tr : List (List (K × K))),
      (idx.foldl (moveStep sq p) (bs, tr)).1 =
        idx.foldl (fun acc i => match acc[i]? with
          | none => acc
          | some b => acc.set i (integrate sq p b)) bs := by
  intro idx
  induction idx with
  | nil => intro bs tr; rfl
  | cons i rest ih =>
    intro bs tr
    rw [List.foldl_cons, List.foldl_cons]
    have hms : moveStep sq p (bs, tr) i =
        ((match bs[i]? with | none => bs | some b => bs.set i (integrate sq p b)),
         (moveStep sq p (bs, tr) i).2) := by
      unfold moveStep
      cases h : bs[i]? with
      | none => rfl
      | some b => rfl
    rw [hms]
    exact ih _ _

/-- Every shark left by the updateSharks loop respects its personal speed
cap. -/
theorem updateSharks_speed_bound (ctx : AqCtx K) (hsq : SqrtOK ctx.sq)
    (p : AqParams K) (hsw : 0 ≤ p.swimmingSpeed)
    (sharks fish : List (Fish K)) (eaten : Nat) (hs : ∀ s ∈ sharks, 0 ≤ s.speed) :
    ∀ s ∈ (updateSharks ctx p sharks fish eaten).1,
      Fish.speedSq s ≤ (s.speed * p.swimmingSpeed) * (s.speed * p.swimmingSpeed) := by
  have key : ∀ k : Nat, k ≤ sharks.length →
      (((List.range k).foldl (fun (acc : List (Fish K) × List (Fish K) × Nat) i =>
          match acc.1[i]? with
          | none => acc
          | some s =>
            let r := sharkStep ctx p acc.2.1 i s
            (acc.1.set i r.1, r.2.1, acc.2.2 + r.2.2)) (sharks, fish, eaten)).1.length
        = sharks.length) ∧
      (∀ y ∈ ((List.range k).foldl (fun (acc : List (Fish K) × List (Fish K) × Nat) i =>
          match acc.1[i]? with
          | none => acc
          | some s =>
            let r := sharkStep ctx p acc.2.1 i s
            (acc.1.set i r.1, r.2.1, acc.2.2 + r.2.2)) (sharks, fish, eaten)).1, 0 ≤ y.speed) ∧
      (∀ j : Nat, j < k → ∀ x, (((List.range k).foldl
          (fun (acc : List (Fish K) × List (Fish K) × Nat) i =>
          match acc.1[i]? with
          | none => acc
          | some s =>
            let r := sharkStep ctx p acc.2.1 i s
            (acc.1.set i r.1, r.2.1, acc.2.2 + r.2.2)) (sharks, fish, eaten)).1)[j]? = some x →
        Fish.speedSq x ≤ (x.speed * p.swimmingSpeed) * (x.speed * p.swimmingSpeed)) := by
    intro k
    induction k with
    | zero =>
      intro _
      exact ⟨rfl, hs, fun j h => absurd h (Nat.not_lt_zero j)⟩
    | succ k ih =>
      intro hk1
      have hk : k ≤ sharks.length := Nat.le_of_succ_le hk1
      obtain ⟨hlen, hI, hP⟩ := ih hk
      set r := (List.range k).foldl (fun (acc : List (Fish K) × List (Fish K) × Nat) i =>
          match acc.1[i]? with
          | none => acc
          | some s =>
            let q := sharkStep ctx p acc.2.1 i s
            (acc.1.set i q.1, q.2.1, acc.2.2 + q.2.2)) (sharks, fish, eaten) with hr
      have hfold : (List.range (k + 1)).foldl (fun (acc : List (Fish K) × List (Fish K) × Nat) i =>
          match acc.1[i]? with
          | none => acc
          | some s =>
            let q := sharkStep ctx p acc.2.1 i s
            (acc.1.set i q.1, q.2.1, acc.2.2 + q.2.2)) (sharks, fish, eaten) =
          (match r.1[k]? with
          | none => r
          | some s =>
            let q := sharkStep ctx p r.2.1 k s
            (r.1.set k q.1, q.2.1, r.2.2 + q.2.2)) := by
        rw [List.range_succ, List.foldl_append]
        rfl
      have hklt : k < r.1.length := by rw [hlen]; exact hk1
      obtain ⟨b, hb⟩ : ∃ b, r.1[k]? = some b := ⟨r.1[k], List.getElem?_eq_getElem hklt⟩
      have hbmem : b ∈ r.1 := by
        have hm := List.getElem_mem hklt
        have he := List.getElem?_eq_getElem hklt
        rw [hb] at he
        rwa [Option.some_inj.mp he.symm] at hm
      have hstep := sharkStep_speedSq_le ctx hsq p r.2.1 k b (mul_nonneg (hI b hbmem) hsw)
      rw [hfold, hb]
      refine ⟨?_, ?_, ?_⟩
      · dsimp only
        rw [List.length_set, hlen]
      · intro y hy
        dsimp only at hy
        rcases List.mem_or_eq_of_mem_set hy with hy2 | hy2
        · exact hI y hy2
        · rw [hy2, hstep.2]
          exact hI b hbmem
      · intro j hj x hx
        dsimp only at hx
        by_cases hjk : j = k
        · subst hjk
          rw [List.getElem?_set_eq_of_lt _ hklt] at hx
          rw [← Option.some_inj.mp hx]
          rw [hstep.2]
          exact hstep.1
        · rw [List.getElem?_set_ne (fun h => hjk h.symm)] at hx
          exact hP j (by omega) x hx
  intro s hmem
  unfold updateSharks at hmem
  obtain ⟨hlen, hI, hP⟩ := key sharks.length le_rfl
  obtain ⟨i, hi, heq⟩ := List.getElem_of_mem hmem
  refine hP i (by rw [← hlen]; exact hi) s ?_
  rw [List.getElem?_eq_getElem hi, heq]

/-- Real square root satisfies the abstract square-root contract. -/
theorem sqrtOK_real : SqrtOK Real.sqrt :=
  fun x hx => ⟨Real.mul_self_sqrt hx, Real.sqrt_nonneg x⟩

/-- Claim C1 (corrected): after an unpaused tick completes, every boid's
squared speed is bounded by maxSpeed squared, and every aquarium creature's
squared speed is bounded by the square of its own speed attribute times
swimmingSpeed (the attribute is the kind speed scaled by a random factor in
[0.8, 1.2], so the per-kind bound of the original claim holds only up to that
factor) — while the scare interaction, per the counterexample, violates the
bound until the next tick re-clamps it. -/
theorem c1_speed_clamped_after_tick :
    (∀ (sq : K → K), SqrtOK sq → ∀ (p : BoidParams K), 0 ≤ p.maxSpeed →
       ∀ (md : Bool) (m : K × K) (st : BoidsState K),
       ∀ b ∈ (updateBoids sq p md m false st).boids,
         Boid.speedSq b ≤ p.maxSpeed * p.maxSpeed) ∧
    (∀ (ctx : AqCtx K), SqrtOK ctx.sq → ∀ (p : AqParams K), 0 ≤ p.swimmingSpeed →
       ∀ (sharks : List (Fish K)) (foods : List (Food K)) (mouse : K × K) (time : K)
         (fish : List (Fish K)), (∀ f ∈ fish, 0 ≤ f.speed) →
       ∀ f ∈ updateFishInPlace ctx p sharks foods mouse time fish,
         Fish.speedSq f ≤ (f.speed * p.swimmingSpeed) * (f.speed * p.swimmingSpeed)) ∧
    (∀ (ctx : AqCtx K), SqrtOK ctx.sq → ∀ (p : AqParams K), 0 ≤ p.swimmingSpeed →
       ∀ (sharks fish : List (Fish K)) (eaten : Nat), (∀ s ∈ sharks, 0 ≤ s.speed) →
       ∀ s ∈ (updateSharks ctx p sharks fish eaten).1,
         Fish.speedSq s ≤ (s.speed * p.swimmingSpeed) * (s.speed * p.swimmingSpeed)) := by
  refine ⟨?_, ?_, ?_⟩
  · intro sq hsq p hM md m st b hb
    have hform : (updateBoids sq p md m false st).boids =
        (movePhase sq p (forcePhase sq p md m st.boids) st.trails).1 := rfl
    rw [hform] at hb
    rw [movePhase] at hb
    rw [movePhase_fst sq p] at hb
    exact range_foldl_set_all
      (fun acc i => match acc[i]? with
        | none => acc
        | some b => acc.set i (integrate sq p b))
      (fun _ _ b => integrate sq p b)
      (fun b => Boid.speedSq b ≤ p.maxSpeed * p.maxSpeed) (fun _ => True)
      (forcePhase sq p md m st.boids) (fun _ _ => trivial)
      (fun acc i b h => by simp only [h])
      (fun acc i x _ _ => ⟨integrate_speedSq_le sq hsq p hM x, trivial⟩) b hb
  · intro ctx hsq p hsw sharks foods mouse time fish hf f hfmem
    unfold updateFishInPlace at hfmem
    refine range_foldl_set_all
      (fun acc i => match acc[i]? with
        | none => acc
        | some g => acc.set i (fishStep ctx p sharks foods mouse time acc g))
      (fun acc _ g => fishStep ctx p sharks foods mouse time acc g)
      (fun g => Fish.speedSq g ≤ (g.speed * p.swimmingSpeed) * (g.speed * p.swimmingSpeed))
      (fun g => 0 ≤ g.speed) fish hf (fun acc i b h => by simp only [h]) ?_ f hfmem
    intro acc i x hIacc hIx
    have h := fishStep_speedSq_le ctx hsq p sharks foods mouse time acc x
      (mul_nonneg hIx hsw)
    constructor
    · show Fish.speedSq (fishStep ctx p sharks foods mouse time acc x) ≤
        ((fishStep ctx p sharks foods mouse time acc x).speed * p.swimmingSpeed) *
          ((fishStep ctx p sharks foods mouse time acc x).speed * p.swimmingSpeed)
      rw [h.2]
      exact h.1
    · show 0 ≤ (fishStep ctx p sharks foods mouse time acc x).speed
      rw [h.2]
      exact hIx
  · intro ctx hsq p hsw sharks fish eaten hs s hmem
    exact updateSharks_speed_bound ctx hsq p hsw sharks fish eaten hs s hmem

/-- The C1 theorem applied over the reals with Real.sqrt: one boid, one fish
and one shark at concrete states, each bounded after one tick. -/
theorem c1_speed_clamped_after_tick_witness :
    (∀ b ∈ (updateBoids Real.sqrt boidParamsR false (0, 0) false ⟨[boidR], [[]]⟩).boids,
       Boid.speedSq b ≤ boidParamsR.maxSpeed * boidParamsR.maxSpeed) ∧
    (∀ f ∈ updateFishInPlace aqCtxR aqParamsR [sharkR] [] (0, 0) 0 [fishR],
       Fish.speedSq f ≤ (f.speed * aqParamsR.swimmingSpeed) * (f.speed * aqParamsR.swimmingSpeed)) ∧
    (∀ s ∈ (updateSharks aqCtxR aqParamsR [sharkR] [fishR] 0).1,
       Fish.speedSq s ≤ (s.speed * aqParamsR.swimmingSpeed) * (s.speed * aqParamsR.swimmingSpeed)) :=
  ⟨c1_speed_clamped_after_tick.1 Real.sqrt sqrtOK_real boidParamsR
      (by norm_num [boidParamsR]) false (0, 0) ⟨[boidR], [[]]⟩,
   c1_speed_clamped_after_tick.2.1 aqCtxR sqrtOK_real aqParamsR
      (by norm_num [aqParamsR]) [sharkR] [] (0, 0) 0 [fishR]
      (by intro f hf; simp only [List.mem_singleton] at hf; rw [hf]; norm_num [fishR]),
   c1_speed_clamped_after_tick.2.2 aqCtxR sqrtOK_real aqParamsR
      (by norm_num [aqParamsR]) [sharkR] [fishR] 0
      (by intro s hsm; simp only [List.mem_singleton] at hsm; rw [hsm]; norm_num [sharkR])⟩
